import Mathlib

/-!
tasker: registries, execution ledger and completion protocol

A shallow embedding of the Go package `tasker` (`task.go`, `storage.go`,
`tasker.go`).

Conventions of the embedding

* `time.Time` is a natural number; `0` is the zero time (`IsZero`), `Before`
  is `<`.  Every `time.Now()` of the source is an explicit argument `now`.
* A Go `map[string]V` is an association list `List (String × V)`; `m[k] = v`
  drops the old binding of `k` and appends the new one, `delete(m, k)` drops
  the binding, `len(m)` is the length.  `range` visits the bindings in list
  order.
* `uuid.New().String()` is an explicit argument `uuid`.
* The `error` results of `fmt.Errorf` are their message strings; `none` is
  the `nil` error.  A nil-pointer dereference is the separate result `panic`.
* A Go value of func type `TaskHandler` is an `Option TaskHandler`: `none` is
  the nil func, which `Register` accepts like any other value and whose call
  panics.
* A goroutine started with `go` is a value that is run by an explicit step;
  the trimming goroutine of `AddTaskExec` runs to its end right after the
  insert.
* `sort.Slice` is a sort by `StartTime`; on equal start times (where Go leaves
  the order open) it keeps the iteration order.
* Maps hold pointers.  A `*Task` is never written after its creation, so tasks
  are values.  The two places where a field is written through a pointer that
  a map also holds (`complete` on a `*TaskExec`, the `cronId` assignment on a
  `*TaskScheme`) write the map's copy as well (`writeExec`, `writeScheme`).
-/

namespace tasker

/-- Results `(value, error)` of the storage methods are compared by value. -/
instance instDecidableEqExcept {ε α : Type} [DecidableEq ε] [DecidableEq α] :
    DecidableEq (Except ε α)
  | .ok a, .ok b => if h : a = b then isTrue (by rw [h]) else isFalse (by intro e; cases e; exact h rfl)
  | .error a, .error b =>
    if h : a = b then isTrue (by rw [h]) else isFalse (by intro e; cases e; exact h rfl)
  | .ok _, .error _ => isFalse (by intro e; cases e)
  | .error _, .ok _ => isFalse (by intro e; cases e)

/-! ## Go maps -/

/-- Go map with string keys, as an association list. -/
abbrev GoMap (V : Type) := List (String × V)

namespace GoMap

variable {V : Type}

/-- Lookup `m[k]` with the comma-ok form: `none` when the key is missing. -/
def get (m : GoMap V) (k : String) : Option V :=
  (m.find? (fun kv => kv.1 == k)).map Prod.snd

/-- Builtin `delete(m, k)`. -/
def delete (m : GoMap V) (k : String) : GoMap V :=
  m.filter (fun kv => !(kv.1 == k))

/-- Assignment `m[k] = v`. -/
def set (m : GoMap V) (k : String) (v : V) : GoMap V :=
  delete m k ++ [(k, v)]

/-- Membership test `_, ok := m[k]`. -/
def has (m : GoMap V) (k : String) : Bool :=
  m.any (fun kv => kv.1 == k)

/-- Values in iteration order. -/
def values (m : GoMap V) : List V :=
  m.map Prod.snd

end GoMap

/-! ## task.go -/

/-- Go struct `Task`. -/
structure Task where
  TaskId : String
  TaskHandler : String
  Desc : String
  Param : String
deriving DecidableEq, Repr

/-- Go struct `TaskScheme`; `cronId` is the cron entry id. -/
structure TaskScheme where
  SchemeId : String
  TaskId : String
  Cron : String
  cronId : Nat
deriving DecidableEq, Repr

/-- Go struct `TaskExec`. -/
structure TaskExec where
  ExecId : String
  TaskId : String
  StartTime : Nat
  EndTime : Nat
  Success : Bool
  Result : String
deriving DecidableEq, Repr

/-- Go struct `TaskEvent`. -/
structure TaskEvent where
  ExecId : String
  Time : Nat
  Level : String
  Message : String
deriving DecidableEq, Repr

/-! ## storage.go -/

/-- Go struct `MemoryStorage` (the mutex is not modelled: every method is one
atomic step). -/
structure MemoryStorage where
  taskMap : GoMap Task
  schemeMap : GoMap TaskScheme
  execMap : GoMap TaskExec
  eventMap : GoMap (List TaskEvent)
deriving DecidableEq, Repr

/-- Constructor `NewMemoryStorage`. -/
def NewMemoryStorage : MemoryStorage :=
  { taskMap := [], schemeMap := [], execMap := [], eventMap := [] }

namespace MemoryStorage

/-- Method `AddTask`. -/
def AddTask (m : MemoryStorage) (task : Task) : Except String MemoryStorage :=
  .ok { m with taskMap := m.taskMap.set task.TaskId task }

/-- One iteration of the first loop of `RemoveTask`; an entry deleted before
it is reached is not visited. -/
def removeSchemeStep (taskId : String) (sm : GoMap TaskScheme)
    (kv : String × TaskScheme) : GoMap TaskScheme :=
  if sm.has kv.1 then
    if kv.2.TaskId = taskId then sm.delete kv.2.SchemeId else sm
  else sm

/-- One iteration of the second loop of `RemoveTask`, on the pair
(execMap, eventMap). -/
def removeExecStep (taskId : String)
    (st : GoMap TaskExec × GoMap (List TaskEvent))
    (kv : String × TaskExec) : GoMap TaskExec × GoMap (List TaskEvent) :=
  if st.1.has kv.1 then
    if kv.2.TaskId = taskId then
      (st.1.delete kv.2.ExecId, st.2.delete kv.2.ExecId)
    else st
  else st

/-- Method `RemoveTask`. -/
def RemoveTask (m : MemoryStorage) (taskId : String) : Except String MemoryStorage :=
  let sm := m.schemeMap.foldl (removeSchemeStep taskId) m.schemeMap
  let ee := m.execMap.foldl (removeExecStep taskId) (m.execMap, m.eventMap)
  .ok { taskMap := m.taskMap.delete taskId, schemeMap := sm,
        execMap := ee.1, eventMap := ee.2 }

/-- Method `ListTasks`. -/
def ListTasks (m : MemoryStorage) : Except String (List Task) :=
  .ok m.taskMap.values

/-- Method `AddTaskScheme`. -/
def AddTaskScheme (m : MemoryStorage) (scheme : TaskScheme) : Except String MemoryStorage :=
  .ok { m with schemeMap := m.schemeMap.set scheme.SchemeId scheme }

/-- Method `RemoveTaskScheme`. -/
def RemoveTaskScheme (m : MemoryStorage) (schemeId : String) : Except String MemoryStorage :=
  .ok { m with schemeMap := m.schemeMap.delete schemeId }

/-- Method `ListTaskSchemes`. -/
def ListTaskSchemes (m : MemoryStorage) : Except String (List TaskScheme) :=
  .ok m.schemeMap.values

/-- The `sort.Slice` call of `AddTaskExec`: ascending by `StartTime`. -/
def sortByStart (execs : List TaskExec) : List TaskExec :=
  execs.insertionSort (fun a b => a.StartTime ≤ b.StartTime)

/-- Body of the goroutine started by `AddTaskExec`. -/
def trimExecs (m : MemoryStorage) : MemoryStorage :=
  if m.execMap.length > 100 then
    let execs := sortByStart m.execMap.values
    { m with execMap :=
        (execs.take 100).foldl (fun mp exec => mp.delete exec.ExecId) m.execMap }
  else m

/-- Method `AddTaskExec`, its goroutine run to completion right after the
insert. -/
def AddTaskExec (m : MemoryStorage) (exec : TaskExec) : Except String MemoryStorage :=
  .ok (trimExecs { m with execMap := m.execMap.set exec.ExecId exec })

/-- Method `UpdateTaskExec`. -/
def UpdateTaskExec (m : MemoryStorage) (exec : TaskExec) : Except String MemoryStorage :=
  .ok { m with execMap := m.execMap.set exec.ExecId exec }

/-- Method `AddTaskEvent`. -/
def AddTaskEvent (m : MemoryStorage) (event : TaskEvent) : Except String MemoryStorage :=
  let execId := event.ExecId
  let events := (m.eventMap.get execId).getD []
  let events := events ++ [event]
  let events := if events.length > 100 then events.drop (events.length - 100) else events
  .ok { m with eventMap := m.eventMap.set execId events }

/-- Method `ListTaskEvents`. -/
def ListTaskEvents (m : MemoryStorage) (eventId : String) : Except String (List TaskEvent) :=
  .ok ((m.eventMap.get eventId).getD [])

/-- Field write through a shared `*TaskExec`: the caller keeps the pointer it
passed to `AddTaskExec`, and ExecIds are fresh UUIDs, so the object the map
holds under the same ExecId (when it still holds one) is the caller's object
and shows the caller's field writes. -/
def writeExec (m : MemoryStorage) (exec : TaskExec) : MemoryStorage :=
  { m with execMap :=
      m.execMap.map (fun kv => if kv.1 == exec.ExecId then (kv.1, exec) else kv) }

/-- Field write through a shared `*TaskScheme` (the `cronId` assignment after
the scheme was handed to, or read from, the storage). -/
def writeScheme (m : MemoryStorage) (scheme : TaskScheme) : MemoryStorage :=
  { m with schemeMap :=
      m.schemeMap.map (fun kv => if kv.1 == scheme.SchemeId then (kv.1, scheme) else kv) }

end MemoryStorage

/-! ## The trigger scheduler -/

/-- Modelled from the spec: the trigger scheduler (`cronv3.Cron`, an external
library) is "register a recurring trigger, get a cancel handle, receive a fire
callback with no arguments".  An entry is its handle together with the task id
that its callback passes to `RunTask`; handles are numbered from 1. -/
structure Cron where
  nextID : Nat
  entries : List (Nat × String)
deriving DecidableEq, Repr

namespace Cron

/-- Modelled from the spec: a scheduler with no trigger registered. -/
def New : Cron := { nextID := 0, entries := [] }

/-- Modelled from the spec: `AddFunc` registers a trigger and returns its
handle, or fails on a cron expression the parser `accepts` not. -/
def AddFunc (accepts : String → Bool) (c : Cron) (spec : String) (taskId : String) :
    Cron × Except String Nat :=
  if accepts spec then
    ({ nextID := c.nextID + 1, entries := c.entries ++ [(c.nextID + 1, taskId)] },
      .ok (c.nextID + 1))
  else (c, .error "cron: bad spec")

/-- Modelled from the spec: `Remove` cancels the trigger with the given
handle, if any. -/
def Remove (c : Cron) (id : Nat) : Cron :=
  { c with entries := c.entries.filter (fun en => !(en.1 == id)) }

end Cron

/-! ## tasker.go -/

/-- Result of a call that may hit a nil-pointer dereference. -/
inductive Outcome (α : Type) where
  | ret (a : α)
  | panic
deriving DecidableEq, Repr

/-- The `result interface{}` argument of `Success` and `Fail`, by what
`json.Marshal` makes of it. -/
inductive Payload where
  | nil
  | value (json : String)
  | unmarshalable
deriving DecidableEq, Repr

/-- One call a handler makes on its `*TaskContext`. -/
inductive Call where
  | Event (now : Nat) (eventType message : String)
  | BindJSON
  | Success (now : Nat) (result : Payload)
  | Fail (now : Nat) (result : Payload)
deriving DecidableEq, Repr

/-- A non-nil `TaskHandler` (a Go func), by one run of it: the calls it makes
on the context, in order, and whether it returns a non-nil error.  The nil
func is the `none` of `Option TaskHandler`. -/
structure TaskHandler where
  calls : List Call
  err : Bool
deriving DecidableEq, Repr

/-- Go struct `TaskContext`; its `Storage` field is the Tasker's storage. -/
structure TaskContext where
  task : Task
  taskExec : TaskExec
deriving DecidableEq, Repr

/-- The goroutine `RunTask` starts: its two arguments, either possibly nil. -/
structure Goroutine where
  handler : Option TaskHandler
  context : Option TaskContext
deriving DecidableEq, Repr

/-- Go struct `Tasker`. -/
structure Tasker where
  Storage : MemoryStorage
  handlers : GoMap (Option TaskHandler)
  tasks : GoMap Task
  schemes : GoMap TaskScheme
  cron : Cron
deriving DecidableEq, Repr

/-- Constructor `Default`. -/
def Default : Tasker :=
  { Storage := NewMemoryStorage, handlers := [], tasks := [], schemes := [],
    cron := Cron.New }

/-- What `RunTask` returns and starts. -/
structure RunResult where
  tasker : Tasker
  execId : String
  err : Option String
  launched : Option Goroutine
deriving DecidableEq, Repr

namespace Tasker

/-- Method `SetStorage`. -/
def SetStorage (t : Tasker) (storage : MemoryStorage) : Tasker :=
  { t with Storage := storage }

/-- Method `Register`; the handler may be the nil func. -/
def Register (t : Tasker) (taskType : String) (handler : Option TaskHandler) : Tasker :=
  { t with handlers := t.handlers.set taskType handler }

/-- Method `AddTask`. -/
def AddTask (t : Tasker) (taskId taskType desc param : String) : Tasker :=
  if !t.handlers.has taskType then t
  else if t.tasks.has taskId then t
  else
    let task : Task :=
      { TaskId := taskId, TaskHandler := taskType, Desc := desc, Param := param }
    match t.Storage.AddTask task with
    | .error _ => t
    | .ok s => { t with Storage := s, tasks := t.tasks.set taskId task }

/-- Method `RemoveTask`. -/
def RemoveTask (t : Tasker) (taskId : String) : Tasker × Option String :=
  match t.Storage.RemoveTask taskId with
  | .error e => (t, some e)
  | .ok s => ({ t with Storage := s, tasks := t.tasks.delete taskId }, none)

/-- Method `AddTaskScheme`. -/
def AddTaskScheme (accepts : String → Bool) (t : Tasker)
    (schemeId taskId cronStr : String) : Tasker × Option String :=
  if !t.tasks.has taskId then (t, some "taskId not found")
  else if t.schemes.has schemeId then (t, some "schemeId already exists")
  else
    let scheme : TaskScheme :=
      { SchemeId := schemeId, TaskId := taskId, Cron := cronStr, cronId := 0 }
    match t.Storage.AddTaskScheme scheme with
    | .error _ => (t, some "add task scheme failed")
    | .ok s =>
      match t.cron.AddFunc accepts cronStr taskId with
      | (c, .error _) => ({ t with Storage := s, cron := c }, some "add cron failed")
      | (c, .ok cronId) =>
        let scheme := { scheme with cronId := cronId }
        ({ t with Storage := s.writeScheme scheme, cron := c,
                  schemes := t.schemes.set schemeId scheme }, none)

/-- Method `RemoveTaskScheme`; `t.schemes[schemeId]` is nil for a missing key
and `.cronId` dereferences it. -/
def RemoveTaskScheme (t : Tasker) (schemeId : String) : Outcome (Tasker × Option String) :=
  match t.schemes.get schemeId with
  | none => .panic
  | some scheme =>
    let c := t.cron.Remove scheme.cronId
    match t.Storage.RemoveTaskScheme schemeId with
    | .error _ => .ret ({ t with cron := c }, some "remove task scheme failed")
    | .ok s =>
      .ret ({ t with Storage := s, cron := c, schemes := t.schemes.delete schemeId }, none)

/-- One iteration of the last loop of `Run`; the callback of the trigger is
given by the task id it passes to `RunTask`, the `TaskId` of this iteration's
schedule. -/
def runSchemeStep (accepts : String → Bool) (t : Tasker) (scheme : TaskScheme) : Tasker :=
  if !t.tasks.has scheme.TaskId then t
  else
    match t.cron.AddFunc accepts scheme.Cron scheme.TaskId with
    | (c, .error _) => { t with cron := c }
    | (c, .ok cronId) =>
      let scheme := { scheme with cronId := cronId }
      { t with Storage := t.Storage.writeScheme scheme, cron := c,
               schemes := t.schemes.set scheme.SchemeId scheme }

/-- Method `Run`. -/
def Run (accepts : String → Bool) (t : Tasker) : Tasker × Option String :=
  match t.Storage.ListTasks with
  | .error e => (t, some e)
  | .ok taskList =>
    let t := taskList.foldl (fun t task => { t with tasks := t.tasks.set task.TaskId task }) t
    match t.Storage.ListTaskSchemes with
    | .error e => (t, some e)
    | .ok schemes =>
      let t := schemes.foldl
        (fun t scheme => { t with schemes := t.schemes.set scheme.SchemeId scheme }) t
      (schemes.foldl (runSchemeStep accepts) t, none)

/-- Method `NewTaskContext`. -/
def NewTaskContext (t : Tasker) (exec : TaskExec) : Option TaskContext :=
  match t.tasks.get exec.TaskId with
  | none => none
  | some task => some { task := task, taskExec := exec }

/-- Method `RunTask`; the goroutine it starts is returned, not run. -/
def RunTask (t : Tasker) (taskId uuid : String) (now : Nat) : RunResult :=
  match t.tasks.get taskId with
  | none => { tasker := t, execId := "", err := some "task not found", launched := none }
  | some task =>
    let exec : TaskExec :=
      { ExecId := uuid, TaskId := taskId, StartTime := now, EndTime := 0,
        Success := false, Result := "" }
    match t.Storage.AddTaskExec exec with
    | .error e => { tasker := t, execId := "", err := some e, launched := none }
    | .ok s =>
      let t1 := { t with Storage := s }
      let handler := (t1.handlers.get task.TaskHandler).getD none
      let context := t1.NewTaskContext exec
      { tasker := t1, execId := exec.ExecId, err := none,
        launched := some { handler := handler, context := context } }

/-- Method `Events`. -/
def Events (t : Tasker) (execId : String) : Except String (List TaskEvent) :=
  t.Storage.ListTaskEvents execId

end Tasker

namespace TaskContext

/-- Method `Event`; the error of `AddTaskEvent` is dropped. -/
def Event (c : TaskContext) (s : MemoryStorage) (now : Nat) (eventType message : String) :
    MemoryStorage :=
  match s.AddTaskEvent
      { ExecId := c.taskExec.ExecId, Time := now, Level := eventType, Message := message } with
  | .ok s1 => s1
  | .error _ => s

/-- Method `complete`: the context and storage afterwards, and the returned
error. -/
def complete (c : TaskContext) (s : MemoryStorage) (now : Nat) (success : Bool)
    (result : Payload) : TaskContext × MemoryStorage × Option String :=
  let exec := { c.taskExec with Success := success, EndTime := now }
  let s := s.writeExec exec
  match result with
  | .unmarshalable => ({ c with taskExec := exec }, s, some "json: unsupported type")
  | .nil =>
    match s.UpdateTaskExec exec with
    | .ok s1 => ({ c with taskExec := exec }, s1, none)
    | .error e => ({ c with taskExec := exec }, s, some e)
  | .value data =>
    let exec := { exec with Result := data }
    let s := s.writeExec exec
    match s.UpdateTaskExec exec with
    | .ok s1 => ({ c with taskExec := exec }, s1, none)
    | .error e => ({ c with taskExec := exec }, s, some e)

/-- Method `Success`. -/
def Success (c : TaskContext) (s : MemoryStorage) (now : Nat) (result : Payload) :
    TaskContext × MemoryStorage × Option String :=
  c.complete s now true result

/-- Method `Fail`. -/
def Fail (c : TaskContext) (s : MemoryStorage) (now : Nat) (result : Payload) :
    TaskContext × MemoryStorage × Option String :=
  c.complete s now false result

/-- One call of the handler on the context. -/
def call (cs : TaskContext × MemoryStorage) : Call → TaskContext × MemoryStorage
  | .Event now eventType message => (cs.1, cs.1.Event cs.2 now eventType message)
  | .BindJSON => cs
  | .Success now result => let r := cs.1.Success cs.2 now result; (r.1, r.2.1)
  | .Fail now result => let r := cs.1.Fail cs.2 now result; (r.1, r.2.1)

/-- The handler's run, `handler(context)`. -/
def handle (c : TaskContext) (s : MemoryStorage) (h : TaskHandler) :
    TaskContext × MemoryStorage :=
  h.calls.foldl call (c, s)

end TaskContext

/-- Body of the goroutine of `RunTask`, on the storage as it is when the
goroutine runs; `now` is the clock at the automatic completion.  A nil
handler or a nil context panics. -/
def Goroutine.run (g : Goroutine) (s : MemoryStorage) (now : Nat) :
    Outcome (TaskContext × MemoryStorage) :=
  match g.handler, g.context with
  | some h, some c =>
    let cs := c.handle s h
    if cs.1.taskExec.EndTime = 0 then
      let r := cs.1.complete cs.2 now (!h.err) .nil
      .ret (r.1, r.2.1)
    else .ret cs
  | _, _ => .panic

/-! ## Scenarios and auxiliary definitions -/

/-- Insert a sequence of executions one after the other (`AddTaskExec` never
fails on a `MemoryStorage`). -/
def addExecs (m : MemoryStorage) : List TaskExec → MemoryStorage
  | [] => m
  | e :: es =>
    match m.AddTaskExec e with
    | .ok m1 => addExecs m1 es
    | .error _ => m

/-- Sample execution number `i`: id `e<i>`, started at time `i + 1`. -/
def sampleExec (i : Nat) : TaskExec :=
  { ExecId := "e" ++ toString i, TaskId := "t1", StartTime := i + 1, EndTime := 0,
    Success := false, Result := "" }

/-- A context for execution `e1` of task `t1`, not yet completed. -/
def sampleContext : TaskContext :=
  { task := { TaskId := "t1", TaskHandler := "h", Desc := "d", Param := "{}" },
    taskExec := { ExecId := "e1", TaskId := "t1", StartTime := 1, EndTime := 0,
                  Success := false, Result := "" } }

/-- A storage that holds the execution of `sampleContext`. -/
def sampleStore : MemoryStorage :=
  { NewMemoryStorage with execMap := [("e1", sampleContext.taskExec)] }

/-- First completion of the sample: `Success(nil)` at time 5. -/
def firstCompletion : TaskContext × MemoryStorage × Option String :=
  sampleContext.Success sampleStore 5 .nil

/-- Second completion of the sample: `Fail(nil)` at time 7 on the same
context. -/
def secondCompletion : TaskContext × MemoryStorage × Option String :=
  firstCompletion.1.Fail firstCompletion.2.1 7 .nil

/-- Append a sequence of events one after the other (`AddTaskEvent` never
fails on a `MemoryStorage`). -/
def addEvents (m : MemoryStorage) : List TaskEvent → MemoryStorage
  | [] => m
  | e :: es =>
    match m.AddTaskEvent e with
    | .ok m1 => addEvents m1 es
    | .error _ => m

/-- Whether a call is `Success` or `Fail`. -/
def Call.isCompletion : Call → Bool
  | .Success _ _ => true
  | .Fail _ _ => true
  | _ => false

/-- The call `Success(result)` or `Fail(result)` at time `now`, by its flag. -/
def Call.completion (success : Bool) (now : Nat) (result : Payload) : Call :=
  if success then .Success now result else .Fail now result

/-- What `complete` leaves in `Result` of an execution whose `Result` was
empty. -/
def Payload.stored : Payload → String
  | .value data => data
  | _ => ""

/-- A cron parser that accepts every expression. -/
def acceptAll : String → Bool := fun _ => true

/-- A handler that emits one event and returns nil. -/
def echoHandler : TaskHandler :=
  { calls := [.Event 1 "info" "start"], err := false }

/-- `Default()` with handler `h` registered and task `t1` bound to it. -/
def oneTask : Tasker :=
  (Default.Register "h" (some echoHandler)).AddTask "t1" "h" "d" "{}"

/-- The Tasker after the goroutine started by a `RunTask` has run to its end,
the automatic completion at time `now`. -/
def afterLaunched (r : RunResult) (now : Nat) : Tasker :=
  match r.launched with
  | none => r.tasker
  | some g =>
    match g.run r.tasker.Storage now with
    | .ret cs => { r.tasker with Storage := cs.2 }
    | .panic => r.tasker

/-- `RunTask(taskId)` once for each (uuid, now), the goroutines started but
not run. -/
def runTasks (t : Tasker) (taskId : String) : List (String × Nat) → Tasker
  | [] => t
  | un :: rest => runTasks (t.RunTask taskId un.1 un.2).tasker taskId rest

/-- On `oneTask`: `RunTask(t1)` creates `e0` at time 1 and its handler runs to
the end (one event, automatic completion at time 1); then 100 more
`RunTask(t1)` create `e1 .. e100` at times 2 .. 101. -/
def hundredAndOneRuns : Tasker :=
  runTasks (afterLaunched (oneTask.RunTask "t1" "e0" 1) 1) "t1"
    ((List.range 100).map (fun i => ("e" ++ toString (i + 1), i + 2)))

/-- On a fresh storage: execution `e0` (start 1) is inserted and gets one
event, then executions `e1 .. e100` (start 2 .. 101) are inserted. -/
def evictionRun : MemoryStorage :=
  addExecs
    (addEvents (addExecs NewMemoryStorage [sampleExec 0])
      [{ ExecId := "e0", Time := 1, Level := "info", Message := "start" }])
    ((List.range 100).map (fun i => sampleExec (i + 1)))

/-- On `oneTask`: schedule `s1` is added for `t1`, then `t1` is removed. -/
def scheduledThenRemoved : Tasker × Option String :=
  (oneTask.AddTaskScheme acceptAll "s1" "t1" "* * * * * *").1.RemoveTask "t1"

/-- Sample events: 150 events of execution `e0`, with times 0 .. 149. -/
def sampleEvents : List TaskEvent :=
  (List.range 150).map
    (fun i => { ExecId := "e0", Time := i, Level := "info", Message := "m" })

/-- A handler that emits one event, calls `Fail` with a payload at time 7,
emits another event and returns nil. -/
def failingHandler : TaskHandler :=
  { calls := [.Event 6 "info" "start", .Fail 7 (.value "oops"), .Event 8 "info" "end"],
    err := false }

/-- `Default()` with handler `f` registered and task `t1` bound to it. -/
def failingTask : Tasker :=
  (Default.Register "f" (some failingHandler)).AddTask "t1" "f" "d" "{}"

/-- The storage after `AddTaskExec` of the record `RunTask` creates. -/
def Tasker.storageAfterRun (t : Tasker) (taskId uuid : String) (now : Nat) : MemoryStorage :=
  MemoryStorage.trimExecs
    { t.Storage with
      execMap := t.Storage.execMap.set uuid (TaskExec.mk uuid taskId now 0 false "") }

/-- A cron parser that rejects every expression. -/
def rejectAll : String → Bool := fun _ => false

/-- On `oneTask`: `AddTaskScheme(s1, t1, ..)` with a cron expression the
scheduler rejects. -/
def rejectedSchedule : Tasker × Option String :=
  oneTask.AddTaskScheme rejectAll "s1" "t1" "not a cron"

/-- The calls `Event(level, message)` a handler makes, each with the clock at
the call. -/
def eventCalls (evs : List (Nat × String × String)) : List Call :=
  evs.map (fun e => Call.Event e.1 e.2.1 e.2.2)

/-- The event rows these calls make for execution `execId`. -/
def eventsOf (execId : String) (evs : List (Nat × String × String)) : List TaskEvent :=
  evs.map (fun e => TaskEvent.mk execId e.1 e.2.1 e.2.2)

/-- The handler of `TestTasker`: two events, then `return c.Success(nil)`. -/
def testHandler : TaskHandler :=
  { calls := eventCalls [(2, "info", "test task start"), (3, "info", "test task end")]
      ++ [Call.Success 4 .nil],
    err := false }

/-- The Tasker of `TestTasker` before `RunTask`. -/
def testTasker : Tasker :=
  ((Default.SetStorage NewMemoryStorage).Register "TestTask" (some testHandler)).AddTask
    "task1" "TestTask" "this is a test task" "{}"

/-- A storage as an earlier process left it: task `t1` and its schedule `s1`. -/
def persistedStore : MemoryStorage :=
  (oneTask.AddTaskScheme acceptAll "s1" "t1" "* * * * * *").1.Storage

/-- A new Tasker on `persistedStore` with handler `h` registered and task `t1`
added again, `Run` not called: the schedule registry is empty, the storage
holds `s1`. -/
def restartedTasker : Tasker :=
  ((Default.SetStorage persistedStore).Register "h" (some echoHandler)).AddTask "t1" "h" "d" "{}"

/-- The returned value of a call that did not panic. -/
def Outcome.returned {α : Type} : Outcome α → Option α
  | .ret a => some a
  | .panic => none

/-- On `restartedTasker`: `AddTaskScheme(s1, t1, ..)`, then
`RemoveTaskScheme(s1)`. -/
def restartedRoundTrip : Outcome (Tasker × Option String) :=
  (restartedTasker.AddTaskScheme acceptAll "s1" "t1" "* * * * * *").1.RemoveTaskScheme "s1"

/-- The triggers registered one after the other for a list of schedules by a
scheduler whose last issued handle is `n`: handle and task id of each. -/
def newEntries (n : Nat) : List TaskScheme → List (Nat × String)
  | [] => []
  | s :: ss => (n + 1, s.TaskId) :: newEntries (n + 1) ss

/-- A storage with tasks `t1`, `t2` and schedules `s1` (of `t1`), `s2` (of the
missing task `gone`) and `s3` (of `t2`). -/
def recoveryStore : MemoryStorage :=
  { NewMemoryStorage with
    taskMap := [("t1", Task.mk "t1" "h" "d" "{}"), ("t2", Task.mk "t2" "h" "d" "{}")],
    schemeMap := [("s1", TaskScheme.mk "s1" "t1" "* * * * * *" 0),
                  ("s2", TaskScheme.mk "s2" "gone" "* * * * * *" 0),
                  ("s3", TaskScheme.mk "s3" "t2" "* * * * * *" 0)] }

/-- The Tasker states reached from `Default()` by `Register` of a non-nil
handler, `AddTask`, `RemoveTask`, `AddTaskScheme`, `RemoveTaskScheme` (when it
returns), `Run`, `RunTask`, and by the run of a goroutine on the storage. -/
inductive Reachable (accepts : String → Bool) : Tasker → Prop where
  | start : Reachable accepts Default
  | register {t : Tasker} (taskType : String) (handler : TaskHandler) :
      Reachable accepts t → Reachable accepts (t.Register taskType (some handler))
  | addTask {t : Tasker} (taskId taskType desc param : String) :
      Reachable accepts t → Reachable accepts (t.AddTask taskId taskType desc param)
  | removeTask {t : Tasker} (taskId : String) :
      Reachable accepts t → Reachable accepts (t.RemoveTask taskId).1
  | addTaskScheme {t : Tasker} (schemeId taskId cronStr : String) :
      Reachable accepts t →
      Reachable accepts (t.AddTaskScheme accepts schemeId taskId cronStr).1
  | removeTaskScheme {t t2 : Tasker} (schemeId : String) (err : Option String) :
      Reachable accepts t → t.RemoveTaskScheme schemeId = .ret (t2, err) →
      Reachable accepts t2
  | run {t : Tasker} : Reachable accepts t → Reachable accepts (t.Run accepts).1
  | runTask {t : Tasker} (taskId uuid : String) (now : Nat) :
      Reachable accepts t → Reachable accepts (t.RunTask taskId uuid now).tasker
  | goroutine {t : Tasker} (g : Goroutine) (now : Nat) (c : TaskContext)
      (s : MemoryStorage) :
      Reachable accepts t → g.run t.Storage now = .ret (c, s) →
      Reachable accepts { t with Storage := s }

/-- Every task of the task registry and every stored task names a handler name
that is in the handler registry. -/
def HandlersKnown (t : Tasker) : Prop :=
  (∀ kv ∈ t.tasks, (t.handlers.get kv.2.TaskHandler).isSome = true) ∧
  (∀ kv ∈ t.Storage.taskMap, (t.handlers.get kv.2.TaskHandler).isSome = true)

/-- No handler name is registered with the nil func. -/
def HandlersNonNil (t : Tasker) : Prop :=
  ∀ kv ∈ t.handlers, kv.2.isSome = true

/-- `Default()` after `Register("h", nil)` and `AddTask("t1", "h", ..)`. -/
def nilHandlerTask : Tasker :=
  (Default.Register "h" none).AddTask "t1" "h" "d" "{}"

/-! ## Lemmas on Go maps -/

theorem GoMap.get_cons {V : Type} (a : String) (b : V) (m : GoMap V) (k : String) :
    GoMap.get ((a, b) :: m) k = if a = k then some b else GoMap.get m k := by
  by_cases h : a = k <;> simp [GoMap.get, List.find?_cons, h]

theorem GoMap.delete_cons {V : Type} (a : String) (b : V) (m : GoMap V) (k : String) :
    GoMap.delete ((a, b) :: m) k
      = if a = k then GoMap.delete m k else (a, b) :: GoMap.delete m k := by
  by_cases h : a = k <;> simp [GoMap.delete, List.filter_cons, h]

theorem GoMap.has_cons {V : Type} (a : String) (b : V) (m : GoMap V) (k : String) :
    GoMap.has ((a, b) :: m) k = ((a == k) || GoMap.has m k) := by
  simp [GoMap.has]

theorem GoMap.get_delete_self {V : Type} (m : GoMap V) (k : String) :
    (m.delete k).get k = none := by
  induction m with
  | nil => rfl
  | cons kv m ih =>
    obtain ⟨a, b⟩ := kv
    rw [GoMap.delete_cons]
    split_ifs with h
    · exact ih
    · rw [GoMap.get_cons, if_neg h]; exact ih

theorem GoMap.get_delete_other {V : Type} (m : GoMap V) (k k1 : String) (h : k1 ≠ k) :
    (m.delete k).get k1 = m.get k1 := by
  induction m with
  | nil => rfl
  | cons kv m ih =>
    obtain ⟨a, b⟩ := kv
    rw [GoMap.delete_cons, GoMap.get_cons]
    split_ifs with h1 h2 h2
    · exact absurd (h2.symm.trans h1) h
    · exact ih
    · rw [GoMap.get_cons, if_pos h2]
    · rw [GoMap.get_cons, if_neg h2]; exact ih

theorem GoMap.get_append_of_none {V : Type} (m n : GoMap V) (k : String)
    (h : m.get k = none) : GoMap.get (m ++ n) k = GoMap.get n k := by
  induction m with
  | nil => rfl
  | cons kv m ih =>
    obtain ⟨a, b⟩ := kv
    rw [GoMap.get_cons] at h
    rw [List.cons_append, GoMap.get_cons]
    split_ifs at h ⊢ with h1
    exact ih h

theorem GoMap.get_append_of_some {V : Type} (m n : GoMap V) (k : String) (v : V)
    (h : m.get k = some v) : GoMap.get (m ++ n) k = some v := by
  induction m with
  | nil => simp [GoMap.get] at h
  | cons kv m ih =>
    obtain ⟨a, b⟩ := kv
    rw [GoMap.get_cons] at h
    rw [List.cons_append, GoMap.get_cons]
    split_ifs at h ⊢ with h1
    · exact h
    · exact ih h

theorem GoMap.get_set_self {V : Type} (m : GoMap V) (k : String) (v : V) :
    (m.set k v).get k = some v := by
  unfold GoMap.set
  rw [GoMap.get_append_of_none _ _ _ (GoMap.get_delete_self m k)]
  simp [GoMap.get]

theorem GoMap.get_set_other {V : Type} (m : GoMap V) (k k1 : String) (v : V) (h : k1 ≠ k) :
    (m.set k v).get k1 = m.get k1 := by
  unfold GoMap.set
  cases hg : m.get k1 with
  | none =>
    rw [GoMap.get_append_of_none _ _ _ (by rw [GoMap.get_delete_other m k k1 h, hg])]
    have : ¬ k = k1 := fun e => h e.symm
    simp [GoMap.get, List.find?_cons, this]
  | some w =>
    exact GoMap.get_append_of_some _ _ _ _ (by rw [GoMap.get_delete_other m k k1 h, hg])

theorem GoMap.has_eq_isSome {V : Type} (m : GoMap V) (k : String) :
    m.has k = (m.get k).isSome := by
  induction m with
  | nil => rfl
  | cons kv m ih =>
    obtain ⟨a, b⟩ := kv
    rw [GoMap.has_cons, GoMap.get_cons, ih]
    by_cases h : a = k <;> simp [h]

/-! ## Lemmas on the event ledger -/

theorem keep_keep_append {α : Type} (a b : List α) :
    (a.drop (a.length - 100) ++ b).drop ((a.drop (a.length - 100) ++ b).length - 100)
      = (a ++ b).drop ((a ++ b).length - 100) := by
  have hk : a.length - 100 ≤ a.length := Nat.sub_le _ _
  rw [← List.drop_append_of_le_length hk, List.drop_drop]
  have hn : a.length - 100 + ((List.drop (a.length - 100) (a ++ b)).length - 100)
      = (a ++ b).length - 100 := by
    simp only [List.length_drop, List.length_append]
    omega
  rw [hn]

theorem AddTaskEvent_ledger (m : MemoryStorage) (e : TaskEvent) :
    ∃ m1, m.AddTaskEvent e = .ok m1 ∧ m1.execMap = m.execMap ∧
      m1.eventMap.get e.ExecId
        = some ((((m.eventMap.get e.ExecId).getD []) ++ [e]).drop
            ((((m.eventMap.get e.ExecId).getD []) ++ [e]).length - 100)) := by
  unfold MemoryStorage.AddTaskEvent
  simp only
  by_cases h : (((m.eventMap.get e.ExecId).getD []) ++ [e]).length > 100
  · rw [if_pos h]
    exact ⟨_, rfl, rfl, GoMap.get_set_self _ _ _⟩
  · rw [if_neg h]
    have h0 : (((m.eventMap.get e.ExecId).getD []) ++ [e]).length - 100 = 0 := by omega
    rw [h0, List.drop_zero]
    exact ⟨_, rfl, rfl, GoMap.get_set_self _ _ _⟩

theorem addEvents_ledger (x : String) (evs : List TaskEvent) :
    ∀ m : MemoryStorage, (∀ e ∈ evs, e.ExecId = x) →
      ((m.eventMap.get x).getD []).length ≤ 100 →
      ((addEvents m evs).eventMap.get x).getD []
        = (((m.eventMap.get x).getD []) ++ evs).drop
            ((((m.eventMap.get x).getD []) ++ evs).length - 100) := by
  induction evs with
  | nil =>
    intro m _ hlen
    have h0 : ((m.eventMap.get x).getD []).length - 100 = 0 := by omega
    simp [addEvents, h0]
  | cons e es ih =>
    intro m hx hlen
    have hex : e.ExecId = x := hx e (List.mem_cons_self _ _)
    obtain ⟨m1, hm1, -, hget⟩ := AddTaskEvent_ledger m e
    rw [hex] at hget
    have hes : ∀ e1 ∈ es, e1.ExecId = x := fun e1 h1 => hx e1 (List.mem_cons_of_mem _ h1)
    have hlen1 : ((m1.eventMap.get x).getD []).length ≤ 100 := by
      rw [hget]
      simp only [Option.getD_some, List.length_drop]
      omega
    have := ih m1 hes hlen1
    rw [addEvents, hm1]
    simp only
    rw [this, hget, Option.getD_some, keep_keep_append]
    simp

/-! ## Lemmas on the handler's run -/

theorem call_of_not_completion (c : TaskContext) (s : MemoryStorage) (k : Call)
    (h : k.isCompletion = false) :
    (TaskContext.call (c, s) k).1 = c ∧ (TaskContext.call (c, s) k).2.execMap = s.execMap := by
  cases k with
  | Event now eventType message => exact ⟨rfl, rfl⟩
  | BindJSON => exact ⟨rfl, rfl⟩
  | Success now result => simp [Call.isCompletion] at h
  | Fail now result => simp [Call.isCompletion] at h

theorem calls_of_not_completion (calls : List Call) :
    ∀ (c : TaskContext) (s : MemoryStorage), (∀ k ∈ calls, k.isCompletion = false) →
      (calls.foldl TaskContext.call (c, s)).1 = c ∧
      (calls.foldl TaskContext.call (c, s)).2.execMap = s.execMap := by
  induction calls with
  | nil => intro c s _; exact ⟨rfl, rfl⟩
  | cons k ks ih =>
    intro c s h
    have hk := call_of_not_completion c s k (h k (List.mem_cons_self _ _))
    have hks := ih (TaskContext.call (c, s) k).1 (TaskContext.call (c, s) k).2
      (fun k1 h1 => h k1 (List.mem_cons_of_mem _ h1))
    rw [List.foldl_cons]
    refine ⟨?_, ?_⟩
    · rw [hks.1, hk.1]
    · rw [hks.2, hk.2]

theorem writeExec_get (m : MemoryStorage) (exec e : TaskExec)
    (h : (m.writeExec exec).execMap.get exec.ExecId = some e) : e = exec := by
  unfold MemoryStorage.writeExec at h
  simp only at h
  generalize m.execMap = l at h
  induction l with
  | nil => simp [GoMap.get] at h
  | cons kv l ih =>
    obtain ⟨a, b⟩ := kv
    rw [List.map_cons] at h
    by_cases hk : a = exec.ExecId
    · simp only [hk, beq_self_eq_true, if_true] at h
      rw [GoMap.get_cons, if_pos rfl] at h
      exact (Option.some.inj h).symm
    · have hb : (a == exec.ExecId) = false := by simpa using hk
      simp only [hb, Bool.false_eq_true, if_false] at h
      rw [GoMap.get_cons, if_neg hk] at h
      exact ih h

/-- What `RunTask` returns for a registered task. -/
theorem RunTask_known (t : Tasker) (taskId uuid : String) (now : Nat) (task : Task)
    (ht : t.tasks.get taskId = some task) :
    t.RunTask taskId uuid now
      = RunResult.mk { t with Storage := t.storageAfterRun taskId uuid now } uuid none
          (some (Goroutine.mk ((t.handlers.get task.TaskHandler).getD none)
            (some (TaskContext.mk task (TaskExec.mk uuid taskId now 0 false ""))))) := by
  simp [Tasker.RunTask, ht, MemoryStorage.AddTaskExec, Tasker.NewTaskContext,
    Tasker.storageAfterRun]

theorem call_completion (c : TaskContext) (s : MemoryStorage) (success : Bool) (now : Nat)
    (result : Payload) :
    TaskContext.call (c, s) (Call.completion success now result)
      = ((c.complete s now success result).1, (c.complete s now success result).2.1) := by
  cases success <;> rfl

theorem writeExec_get_of_isSome (m : MemoryStorage) (exec : TaskExec)
    (h : (m.execMap.get exec.ExecId).isSome = true) :
    (m.writeExec exec).execMap.get exec.ExecId = some exec := by
  unfold MemoryStorage.writeExec
  simp only
  generalize m.execMap = l at h
  induction l with
  | nil => simp [GoMap.get] at h
  | cons kv l ih =>
    obtain ⟨a, b⟩ := kv
    rw [List.map_cons]
    by_cases hk : a = exec.ExecId
    · simp only [hk, beq_self_eq_true, if_true]
      rw [GoMap.get_cons, if_pos rfl]
    · have hb : (a == exec.ExecId) = false := by simpa using hk
      simp only [hb, Bool.false_eq_true, if_false]
      rw [GoMap.get_cons, if_neg hk] at h ⊢
      exact ih h

/-- The context `complete` leaves, for an execution whose Result was empty. -/
theorem complete_fresh (task : Task) (uuid taskId : String) (start endTime now : Nat)
    (flag success : Bool) (s : MemoryStorage) (result : Payload) :
    ((TaskContext.mk task (TaskExec.mk uuid taskId start endTime flag "")).complete
        s now success result).1
      = TaskContext.mk task (TaskExec.mk uuid taskId start now success result.stored) := by
  cases result <;> rfl

/-- The fields `complete` always writes, and the ExecId it keeps. -/
theorem complete_fields (c : TaskContext) (s : MemoryStorage) (now : Nat) (success : Bool)
    (result : Payload) :
    (c.complete s now success result).1.taskExec.ExecId = c.taskExec.ExecId ∧
    (c.complete s now success result).1.taskExec.Success = success ∧
    (c.complete s now success result).1.taskExec.EndTime = now := by
  cases result <;> exact ⟨rfl, rfl, rfl⟩

/-- What the storage holds under the context's ExecId after `complete`. -/
theorem complete_stored (c : TaskContext) (s : MemoryStorage) (now : Nat) (success : Bool)
    (result : Payload) :
    (∀ e, (c.complete s now success result).2.1.execMap.get c.taskExec.ExecId = some e →
      e = (c.complete s now success result).1.taskExec) ∧
    ((result ≠ Payload.unmarshalable ∨ (s.execMap.get c.taskExec.ExecId).isSome = true) →
      (c.complete s now success result).2.1.execMap.get c.taskExec.ExecId
        = some (c.complete s now success result).1.taskExec) := by
  cases result with
  | nil =>
    have hg : (c.complete s now success Payload.nil).2.1.execMap.get c.taskExec.ExecId
        = some (c.complete s now success Payload.nil).1.taskExec := by
      simp only [TaskContext.complete, MemoryStorage.UpdateTaskExec]
      exact GoMap.get_set_self _ _ _
    exact ⟨fun e he => (Option.some.inj (hg.symm.trans he)).symm, fun _ => hg⟩
  | value data =>
    have hg : (c.complete s now success (Payload.value data)).2.1.execMap.get c.taskExec.ExecId
        = some (c.complete s now success (Payload.value data)).1.taskExec := by
      simp only [TaskContext.complete, MemoryStorage.UpdateTaskExec]
      exact GoMap.get_set_self _ _ _
    exact ⟨fun e he => (Option.some.inj (hg.symm.trans he)).symm, fun _ => hg⟩
  | unmarshalable =>
    refine ⟨fun e he => writeExec_get s _ e he, fun h => ?_⟩
    rcases h with h | h
    · exact absurd rfl h
    · exact writeExec_get_of_isSome s
        { c.taskExec with Success := success, EndTime := now } h

/-! ## Lemmas on the event log of a run -/

theorem trimExecs_other_maps (m : MemoryStorage) :
    m.trimExecs.eventMap = m.eventMap ∧ m.trimExecs.taskMap = m.taskMap ∧
    m.trimExecs.schemeMap = m.schemeMap := by
  unfold MemoryStorage.trimExecs
  split_ifs <;> exact ⟨rfl, rfl, rfl⟩

theorem complete_other_maps (c : TaskContext) (s : MemoryStorage) (now : Nat) (success : Bool)
    (result : Payload) :
    (c.complete s now success result).2.1.eventMap = s.eventMap ∧
    (c.complete s now success result).2.1.taskMap = s.taskMap ∧
    (c.complete s now success result).2.1.schemeMap = s.schemeMap := by
  cases result <;> exact ⟨rfl, rfl, rfl⟩

theorem eventCalls_fold (evs : List (Nat × String × String)) :
    ∀ (c : TaskContext) (s : MemoryStorage),
      (eventCalls evs).foldl TaskContext.call (c, s)
        = (c, addEvents s (eventsOf c.taskExec.ExecId evs)) := by
  induction evs with
  | nil => intro c s; rfl
  | cons e es ih =>
    intro c s
    simp only [eventCalls, eventsOf, List.map_cons, List.foldl_cons, addEvents]
    have := ih c (c.Event s e.1 e.2.1 e.2.2)
    simp only [eventCalls, eventsOf] at this
    exact this

/-! ## Lemmas on schedules -/

theorem GoMap.delete_of_get_none {V : Type} (m : GoMap V) (k : String)
    (h : m.get k = none) : m.delete k = m := by
  induction m with
  | nil => rfl
  | cons kv m ih =>
    obtain ⟨a, b⟩ := kv
    rw [GoMap.get_cons] at h
    rw [GoMap.delete_cons]
    split_ifs at h ⊢ with h1
    rw [ih h]

theorem GoMap.delete_append {V : Type} (m n : GoMap V) (k : String) :
    GoMap.delete (m ++ n) k = GoMap.delete m k ++ GoMap.delete n k := by
  simp [GoMap.delete]

theorem GoMap.delete_set {V : Type} (m : GoMap V) (k : String) (v : V) :
    (m.set k v).delete k = m.delete k := by
  unfold GoMap.set
  rw [GoMap.delete_append, GoMap.delete_of_get_none _ _ (GoMap.get_delete_self m k)]
  simp [GoMap.delete]

theorem GoMap.delete_write {V : Type} (m : GoMap V) (k : String) (v : V) :
    GoMap.delete (m.map (fun kv => if kv.1 == k then (kv.1, v) else kv)) k
      = GoMap.delete m k := by
  induction m with
  | nil => rfl
  | cons kv m ih =>
    obtain ⟨a, b⟩ := kv
    rw [List.map_cons]
    by_cases h : a = k
    · simp only [h, beq_self_eq_true, if_true]
      rw [GoMap.delete_cons, GoMap.delete_cons, if_pos rfl, if_pos rfl]
      exact ih
    · have hb : (a == k) = false := by simpa using h
      simp only [hb, Bool.false_eq_true, if_false]
      rw [GoMap.delete_cons, GoMap.delete_cons, if_neg h, if_neg h, ih]

theorem Cron.remove_added (c : Cron) (taskId : String)
    (h : ∀ en ∈ c.entries, en.1 ≤ c.nextID) :
    (c.entries ++ [(c.nextID + 1, taskId)]).filter (fun en => !(en.1 == c.nextID + 1))
      = c.entries := by
  rw [List.filter_append]
  have h1 : c.entries.filter (fun en => !(en.1 == c.nextID + 1)) = c.entries := by
    rw [List.filter_eq_self]
    intro en hen
    have := h en hen
    have hne : ¬ en.1 = c.nextID + 1 := by omega
    simpa using hne
  rw [h1]
  simp

/-! ## Lemmas on `Run` -/

theorem GoMap.has_set {V : Type} (m : GoMap V) (k k1 : String) (v : V) :
    (m.set k v).has k1 = ((k == k1) || m.has k1) := by
  rw [GoMap.has_eq_isSome, GoMap.has_eq_isSome]
  by_cases h : k1 = k
  · subst h
    rw [GoMap.get_set_self]
    simp
  · rw [GoMap.get_set_other m k k1 v h]
    have : (k == k1) = false := by simpa using fun e : k = k1 => h e.symm
    simp [this]

theorem loadTasks_get_of_not_mem (tasks : List Task) (k : String) :
    ∀ acc : GoMap Task, k ∉ tasks.map Task.TaskId →
      (tasks.foldl (fun m task => m.set task.TaskId task) acc).get k = acc.get k := by
  induction tasks with
  | nil => intro acc _; rfl
  | cons y ys ih =>
    intro acc hk
    rw [List.map_cons, List.mem_cons, not_or] at hk
    rw [List.foldl_cons, ih _ hk.2, GoMap.get_set_other _ _ _ _ hk.1]

theorem loadTasks_get_some (tasks : List Task) (k : String) (x : Task) :
    ∀ acc : GoMap Task,
      (tasks.foldl (fun m task => m.set task.TaskId task) acc).get k = some x →
      (x ∈ tasks ∧ x.TaskId = k) ∨ acc.get k = some x := by
  induction tasks with
  | nil => intro acc h; exact Or.inr h
  | cons y ys ih =>
    intro acc h
    rw [List.foldl_cons] at h
    rcases ih _ h with h1 | h1
    · exact Or.inl ⟨List.mem_cons_of_mem _ h1.1, h1.2⟩
    · by_cases hk : k = y.TaskId
      · rw [hk, GoMap.get_set_self] at h1
        have hx : y = x := Option.some.inj h1
        exact Or.inl ⟨by rw [← hx]; exact List.mem_cons_self _ _, by rw [← hx, hk]⟩
      · rw [GoMap.get_set_other _ _ _ _ hk] at h1
        exact Or.inr h1

theorem loadTasks_get_of_mem (tasks : List Task) (x : Task) :
    ∀ acc : GoMap Task, (tasks.map Task.TaskId).Nodup → x ∈ tasks →
      (tasks.foldl (fun m task => m.set task.TaskId task) acc).get x.TaskId = some x := by
  induction tasks with
  | nil => intro acc _ hx; simp at hx
  | cons y ys ih =>
    intro acc hnd hx
    rw [List.map_cons, List.nodup_cons] at hnd
    rw [List.foldl_cons]
    rcases List.mem_cons.mp hx with hxy | hxy
    · subst hxy
      rw [loadTasks_get_of_not_mem ys x.TaskId _ hnd.1, GoMap.get_set_self]
    · exact ih _ hnd.2 hxy

theorem loadTasks_has (tasks : List Task) (k : String) :
    ∀ acc : GoMap Task,
      (tasks.foldl (fun m task => m.set task.TaskId task) acc).has k
        = (acc.has k || tasks.any (fun x => x.TaskId == k)) := by
  induction tasks with
  | nil => intro acc; simp
  | cons y ys ih =>
    intro acc
    rw [List.foldl_cons, ih, GoMap.has_set, List.any_cons]
    cases (y.TaskId == k) <;> cases acc.has k <;> simp

theorem Run_tasks_fold (tasks : List Task) :
    ∀ t : Tasker,
      tasks.foldl (fun t task => { t with tasks := t.tasks.set task.TaskId task }) t
        = { t with tasks := tasks.foldl (fun m task => m.set task.TaskId task) t.tasks } := by
  induction tasks with
  | nil => intro t; rfl
  | cons y ys ih => intro t; rw [List.foldl_cons, ih]; rfl

theorem Run_schemes_fold (schemes : List TaskScheme) :
    ∀ t : Tasker,
      schemes.foldl (fun t scheme => { t with schemes := t.schemes.set scheme.SchemeId scheme }) t
        = { t with
            schemes := schemes.foldl (fun m scheme => m.set scheme.SchemeId scheme) t.schemes } := by
  induction schemes with
  | nil => intro t; rfl
  | cons y ys ih => intro t; rw [List.foldl_cons, ih]; rfl

theorem runSchemeStep_spec (accepts : String → Bool) (t : Tasker) (s : TaskScheme) :
    (t.runSchemeStep accepts s).tasks = t.tasks ∧
    (t.runSchemeStep accepts s).handlers = t.handlers ∧
    (t.runSchemeStep accepts s).Storage.taskMap = t.Storage.taskMap ∧
    (t.runSchemeStep accepts s).cron
      = if (t.tasks.has s.TaskId && accepts s.Cron) = true then
          Cron.mk (t.cron.nextID + 1) (t.cron.entries ++ [(t.cron.nextID + 1, s.TaskId)])
        else t.cron := by
  unfold Tasker.runSchemeStep
  by_cases h1 : t.tasks.has s.TaskId = true
  · by_cases h2 : accepts s.Cron = true
    · simp [h1, h2, Cron.AddFunc, MemoryStorage.writeScheme]
    · simp [h1, h2, Cron.AddFunc]
  · simp [h1]

theorem runSchemes_spec (accepts : String → Bool) (schemes : List TaskScheme) :
    ∀ t : Tasker,
      (schemes.foldl (Tasker.runSchemeStep accepts) t).tasks = t.tasks ∧
      (schemes.foldl (Tasker.runSchemeStep accepts) t).handlers = t.handlers ∧
      (schemes.foldl (Tasker.runSchemeStep accepts) t).Storage.taskMap = t.Storage.taskMap ∧
      (schemes.foldl (Tasker.runSchemeStep accepts) t).cron.entries
        = t.cron.entries ++ newEntries t.cron.nextID
            (schemes.filter (fun s => t.tasks.has s.TaskId && accepts s.Cron)) := by
  induction schemes with
  | nil => intro t; simp [newEntries]
  | cons s ss ih =>
    intro t
    have hs := runSchemeStep_spec accepts t s
    have hss := ih (t.runSchemeStep accepts s)
    rw [List.foldl_cons]
    refine ⟨hss.1.trans hs.1, hss.2.1.trans hs.2.1, hss.2.2.1.trans hs.2.2.1, ?_⟩
    rw [hss.2.2.2, hs.1, hs.2.2.2, List.filter_cons]
    by_cases h : (t.tasks.has s.TaskId && accepts s.Cron) = true
    · simp only [h, if_true, newEntries, List.append_assoc, List.singleton_append]
    · simp only [h, if_false, Bool.false_eq_true]

/-! ## Lemmas on the reachable states -/

theorem GoMap.mem_delete {V : Type} (m : GoMap V) (k : String) (kv : String × V)
    (h : kv ∈ m.delete k) : kv ∈ m :=
  (List.mem_filter.mp h).1

theorem GoMap.mem_set {V : Type} (m : GoMap V) (k : String) (v : V) (kv : String × V)
    (h : kv ∈ m.set k v) : kv ∈ m ∨ kv = (k, v) := by
  unfold GoMap.set at h
  rcases List.mem_append.mp h with h1 | h1
  · exact Or.inl (GoMap.mem_delete m k kv h1)
  · exact Or.inr (List.mem_singleton.mp h1)

theorem GoMap.mem_of_get {V : Type} (m : GoMap V) (k : String) (v : V)
    (h : m.get k = some v) : ∃ a, (a, v) ∈ m := by
  induction m with
  | nil => simp [GoMap.get] at h
  | cons kv m ih =>
    obtain ⟨a, b⟩ := kv
    rw [GoMap.get_cons] at h
    split_ifs at h with h1
    · exact ⟨a, by rw [← Option.some.inj h]; exact List.mem_cons_self _ _⟩
    · obtain ⟨a1, ha1⟩ := ih h
      exact ⟨a1, List.mem_cons_of_mem _ ha1⟩

theorem GoMap.isSome_get_set {V : Type} (m : GoMap V) (k k1 : String) (v : V)
    (h : (m.get k1).isSome = true) : ((m.set k v).get k1).isSome = true := by
  by_cases hk : k1 = k
  · rw [hk, GoMap.get_set_self]; rfl
  · rw [GoMap.get_set_other m k k1 v hk]; exact h

theorem loadTasks_mem (tasks : List Task) (kv : String × Task) :
    ∀ acc : GoMap Task,
      kv ∈ tasks.foldl (fun m task => m.set task.TaskId task) acc →
      kv ∈ acc ∨ kv.2 ∈ tasks := by
  induction tasks with
  | nil => intro acc h; exact Or.inl h
  | cons y ys ih =>
    intro acc h
    rw [List.foldl_cons] at h
    rcases ih _ h with h1 | h1
    · rcases GoMap.mem_set _ _ _ _ h1 with h2 | h2
      · exact Or.inl h2
      · exact Or.inr (by rw [h2]; exact List.mem_cons_self _ _)
    · exact Or.inr (List.mem_cons_of_mem _ h1)

theorem AddTaskScheme_keeps (accepts : String → Bool) (t : Tasker)
    (schemeId taskId cronStr : String) :
    (t.AddTaskScheme accepts schemeId taskId cronStr).1.tasks = t.tasks ∧
    (t.AddTaskScheme accepts schemeId taskId cronStr).1.handlers = t.handlers ∧
    (t.AddTaskScheme accepts schemeId taskId cronStr).1.Storage.taskMap
      = t.Storage.taskMap := by
  unfold Tasker.AddTaskScheme
  by_cases h1 : t.tasks.has taskId = true
  · by_cases h2 : t.schemes.has schemeId = true
    · simp [h1, h2]
    · by_cases h3 : accepts cronStr = true
      · simp [h1, h2, h3, MemoryStorage.AddTaskScheme, Cron.AddFunc,
          MemoryStorage.writeScheme]
      · simp [h1, h2, h3, MemoryStorage.AddTaskScheme, Cron.AddFunc]
  · simp [h1]

theorem RemoveTaskScheme_keeps (t t2 : Tasker) (schemeId : String) (err : Option String)
    (h : t.RemoveTaskScheme schemeId = .ret (t2, err)) :
    t2.tasks = t.tasks ∧ t2.handlers = t.handlers ∧
    t2.Storage.taskMap = t.Storage.taskMap := by
  unfold Tasker.RemoveTaskScheme at h
  cases hg : t.schemes.get schemeId with
  | none => simp [hg] at h
  | some scheme =>
    simp only [hg, MemoryStorage.RemoveTaskScheme] at h
    have h2 := (Prod.mk.inj (Outcome.ret.inj h)).1
    rw [← h2]
    exact ⟨rfl, rfl, rfl⟩

theorem Run_keeps (accepts : String → Bool) (t : Tasker) :
    (t.Run accepts).1.tasks
      = t.Storage.taskMap.values.foldl (fun m task => m.set task.TaskId task) t.tasks ∧
    (t.Run accepts).1.handlers = t.handlers ∧
    (t.Run accepts).1.Storage.taskMap = t.Storage.taskMap := by
  have hrun : t.Run accepts
      = ((t.Storage.schemeMap.values.foldl (Tasker.runSchemeStep accepts)
          { t with
            tasks := t.Storage.taskMap.values.foldl
              (fun m task => m.set task.TaskId task) t.tasks,
            schemes := t.Storage.schemeMap.values.foldl
              (fun m scheme => m.set scheme.SchemeId scheme) t.schemes }), none) := by
    simp only [Tasker.Run, MemoryStorage.ListTasks, MemoryStorage.ListTaskSchemes,
      Run_tasks_fold, Run_schemes_fold]
  have hspec := runSchemes_spec accepts t.Storage.schemeMap.values
    { t with
      tasks := t.Storage.taskMap.values.foldl (fun m task => m.set task.TaskId task) t.tasks,
      schemes := t.Storage.schemeMap.values.foldl
        (fun m scheme => m.set scheme.SchemeId scheme) t.schemes }
  rw [hrun]
  exact ⟨hspec.1, hspec.2.1, hspec.2.2.1⟩

theorem RunTask_keeps (t : Tasker) (taskId uuid : String) (now : Nat) :
    (t.RunTask taskId uuid now).tasker.tasks = t.tasks ∧
    (t.RunTask taskId uuid now).tasker.handlers = t.handlers ∧
    (t.RunTask taskId uuid now).tasker.Storage.taskMap = t.Storage.taskMap := by
  cases h : t.tasks.get taskId with
  | none => simp [Tasker.RunTask, h]
  | some task =>
    rw [RunTask_known t taskId uuid now task h]
    exact ⟨rfl, rfl, (trimExecs_other_maps _).2.1⟩

theorem call_taskMap (cs : TaskContext × MemoryStorage) (k : Call) :
    (TaskContext.call cs k).2.taskMap = cs.2.taskMap := by
  cases k with
  | Event now eventType message => rfl
  | BindJSON => rfl
  | Success now result => exact (complete_other_maps cs.1 cs.2 now true result).2.1
  | Fail now result => exact (complete_other_maps cs.1 cs.2 now false result).2.1

theorem calls_taskMap (calls : List Call) :
    ∀ cs : TaskContext × MemoryStorage,
      (calls.foldl TaskContext.call cs).2.taskMap = cs.2.taskMap := by
  induction calls with
  | nil => intro cs; rfl
  | cons k ks ih => intro cs; rw [List.foldl_cons, ih, call_taskMap]

theorem Goroutine_run_taskMap (g : Goroutine) (s s1 : MemoryStorage) (now : Nat)
    (c : TaskContext) (h : g.run s now = .ret (c, s1)) : s1.taskMap = s.taskMap := by
  unfold Goroutine.run at h
  cases hh : g.handler with
  | none => simp [hh] at h
  | some hd =>
    cases hc : g.context with
    | none => simp [hh, hc] at h
    | some c0 =>
      simp only [hh, hc, TaskContext.handle] at h
      have hfold := calls_taskMap hd.calls (c0, s)
      split_ifs at h with he
      · have h2 := (Prod.mk.inj (Outcome.ret.inj h)).2
        rw [← h2, (complete_other_maps _ _ _ _ _).2.1, hfold]
      · have h2 := (Prod.mk.inj (Outcome.ret.inj h)).2
        rw [← h2, hfold]

theorem reachable_handlersKnown (accepts : String → Bool) (t : Tasker)
    (hr : Reachable accepts t) : HandlersKnown t := by
  induction hr with
  | start =>
    exact ⟨fun kv h => by simp [Default] at h, fun kv h => by simp [Default, NewMemoryStorage] at h⟩
  | @register t taskType handler _ ih =>
    exact ⟨fun kv h => GoMap.isSome_get_set _ _ _ _ (ih.1 kv h),
      fun kv h => GoMap.isSome_get_set _ _ _ _ (ih.2 kv h)⟩
  | @addTask t taskId taskType desc param _ ih =>
    unfold Tasker.AddTask
    by_cases h1 : t.handlers.has taskType = true
    · by_cases h2 : t.tasks.has taskId = true
      · simpa [h1, h2] using ih
      · have hnew : (t.handlers.get taskType).isSome = true := by
          rw [← GoMap.has_eq_isSome]; exact h1
        simp only [h1, h2, MemoryStorage.AddTask, Bool.not_true, Bool.false_eq_true, if_false]
        constructor
        · intro kv h
          rcases GoMap.mem_set _ _ _ _ h with h3 | h3
          · exact ih.1 kv h3
          · rw [h3]; exact hnew
        · intro kv h
          rcases GoMap.mem_set _ _ _ _ h with h3 | h3
          · exact ih.2 kv h3
          · rw [h3]; exact hnew
    · simpa [h1] using ih
  | @removeTask t taskId _ ih =>
    exact ⟨fun kv h => ih.1 kv (GoMap.mem_delete _ _ _ h),
      fun kv h => ih.2 kv (GoMap.mem_delete _ _ _ h)⟩
  | @addTaskScheme t schemeId taskId cronStr _ ih =>
    have hk := AddTaskScheme_keeps accepts t schemeId taskId cronStr
    unfold HandlersKnown
    rw [hk.1, hk.2.1, hk.2.2]
    exact ih
  | @removeTaskScheme t t2 schemeId err _ hret ih =>
    have hk := RemoveTaskScheme_keeps t t2 schemeId err hret
    unfold HandlersKnown
    rw [hk.1, hk.2.1, hk.2.2]
    exact ih
  | @run t _ ih =>
    have hk := Run_keeps accepts t
    unfold HandlersKnown
    rw [hk.1, hk.2.1, hk.2.2]
    refine ⟨?_, ih.2⟩
    intro kv h
    rcases loadTasks_mem _ kv _ h with h1 | h1
    · exact ih.1 kv h1
    · obtain ⟨kv1, hkv1, he⟩ := List.mem_map.mp h1
      rw [← he]
      exact ih.2 kv1 hkv1
  | @runTask t taskId uuid now _ ih =>
    have hk := RunTask_keeps t taskId uuid now
    unfold HandlersKnown
    rw [hk.1, hk.2.1, hk.2.2]
    exact ih
  | @goroutine t g now c s _ hrun ih =>
    have hk := Goroutine_run_taskMap g t.Storage s now c hrun
    exact ⟨ih.1, fun kv h => ih.2 kv (by rw [← hk]; exact h)⟩

theorem AddTask_handlers (t : Tasker) (taskId taskType desc param : String) :
    (t.AddTask taskId taskType desc param).handlers = t.handlers := by
  unfold Tasker.AddTask
  by_cases h1 : t.handlers.has taskType = true
  · by_cases h2 : t.tasks.has taskId = true
    · simp [h1, h2]
    · simp [h1, h2, MemoryStorage.AddTask]
  · simp [h1]

theorem reachable_handlersNonNil (accepts : String → Bool) (t : Tasker)
    (hr : Reachable accepts t) : HandlersNonNil t := by
  induction hr with
  | start => exact fun kv h => by simp [Default] at h
  | @register t taskType handler _ ih =>
    intro kv h
    rcases GoMap.mem_set _ _ _ _ h with h1 | h1
    · exact ih kv h1
    · rw [h1]; rfl
  | @addTask t taskId taskType desc param _ ih =>
    unfold HandlersNonNil
    rw [AddTask_handlers]
    exact ih
  | @removeTask t taskId _ ih => exact ih
  | @addTaskScheme t schemeId taskId cronStr _ ih =>
    unfold HandlersNonNil
    rw [(AddTaskScheme_keeps accepts t schemeId taskId cronStr).2.1]
    exact ih
  | @removeTaskScheme t t2 schemeId err _ hret ih =>
    unfold HandlersNonNil
    rw [(RemoveTaskScheme_keeps t t2 schemeId err hret).2.1]
    exact ih
  | @run t _ ih =>
    unfold HandlersNonNil
    rw [(Run_keeps accepts t).2.1]
    exact ih
  | @runTask t taskId uuid now _ ih =>
    unfold HandlersNonNil
    rw [(RunTask_keeps t taskId uuid now).2.1]
    exact ih
  | @goroutine t g now c s _ hrun ih => exact ih

/-! ## Claims -/

/-- C1 (execution retention), evaluated on the code: 150 executions with
distinct ids and start times 1..150 inserted into a fresh `MemoryStorage`
leave 50 executions, those started at 101..150, and not the 100 most
recent ones (51..150): each trim deletes the 100 oldest entries. -/
theorem C1_retention_150_leaves_50 :
    (addExecs NewMemoryStorage ((List.range 150).map sampleExec)).execMap.values.map
        TaskExec.StartTime = List.range' 101 50 := by
  decide!

/-- C2 (RemoveTaskScheme on an unknown id), evaluated on the code: on a
Tasker whose schedule registry lacks `schemeId` the call dereferences a nil
`*TaskScheme` and panics; it returns no error value. -/
theorem C2_RemoveTaskScheme_unknown_panics (t : Tasker) (schemeId : String)
    (h : t.schemes.get schemeId = none) :
    t.RemoveTaskScheme schemeId = Outcome.panic := by
  simp [Tasker.RemoveTaskScheme, h]

/-- Witness of C2 on `Default()` and the id `s1`. -/
theorem C2_RemoveTaskScheme_unknown_panics_witness :
    Default.schemes.get "s1" = none ∧ Default.RemoveTaskScheme "s1" = Outcome.panic :=
  ⟨by decide, C2_RemoveTaskScheme_unknown_panics Default "s1" (by decide)⟩

/-- C3 as stated fails: after `Success(nil)` at time 5 completed the sample
execution (EndTime 5, Success true), `Fail(nil)` at time 7 on the same context
changes EndTime to 7 and Success to false, in the context and in Storage. -/
theorem C3_second_completion_overwrites :
    firstCompletion.1.taskExec.EndTime = 5 ∧ firstCompletion.1.taskExec.Success = true ∧
    (firstCompletion.2.1.execMap.get "e1").map TaskExec.EndTime = some 5 ∧
    (firstCompletion.2.1.execMap.get "e1").map TaskExec.Success = some true ∧
    secondCompletion.1.taskExec.EndTime = 7 ∧ secondCompletion.1.taskExec.Success = false ∧
    (secondCompletion.2.1.execMap.get "e1").map TaskExec.EndTime = some 7 ∧
    (secondCompletion.2.1.execMap.get "e1").map TaskExec.Success = some false := by
  decide

/-- C3 amended (last write wins): whatever the first call of Success or Fail
did, a later call `complete(success2, result2)` at time `now2` on the same
context sets the context's Success to `success2` and its EndTime to `now2`;
an execution stored under the context's ExecId afterwards is the context's
execution with these values, and it is stored when `result2` serialises. -/
theorem C3_later_completion_wins (c : TaskContext) (s : MemoryStorage) (now1 now2 : Nat)
    (success1 success2 : Bool) (result1 result2 : Payload) :
    ((c.complete s now1 success1 result1).1.complete
        (c.complete s now1 success1 result1).2.1 now2 success2 result2).1.taskExec.Success
      = success2 ∧
    ((c.complete s now1 success1 result1).1.complete
        (c.complete s now1 success1 result1).2.1 now2 success2 result2).1.taskExec.EndTime
      = now2 ∧
    (∀ e, ((c.complete s now1 success1 result1).1.complete
        (c.complete s now1 success1 result1).2.1 now2 success2 result2).2.1.execMap.get
        c.taskExec.ExecId = some e →
      e = ((c.complete s now1 success1 result1).1.complete
        (c.complete s now1 success1 result1).2.1 now2 success2 result2).1.taskExec) ∧
    (result2 ≠ Payload.unmarshalable →
      ((c.complete s now1 success1 result1).1.complete
        (c.complete s now1 success1 result1).2.1 now2 success2 result2).2.1.execMap.get
        c.taskExec.ExecId
      = some ((c.complete s now1 success1 result1).1.complete
        (c.complete s now1 success1 result1).2.1 now2 success2 result2).1.taskExec) := by
  have hid := (complete_fields c s now1 success1 result1).1
  have hf := complete_fields (c.complete s now1 success1 result1).1
    (c.complete s now1 success1 result1).2.1 now2 success2 result2
  have hs := complete_stored (c.complete s now1 success1 result1).1
    (c.complete s now1 success1 result1).2.1 now2 success2 result2
  rw [hid] at hs
  exact ⟨hf.2.1, hf.2.2, hs.1, fun h => hs.2 (Or.inl h)⟩

/-- Witness of the amended C3 on the sample: Success(nil) at 5, then
Fail(nil) at 7; the stored execution is the failed one. -/
theorem C3_later_completion_wins_witness :
    Payload.nil ≠ Payload.unmarshalable ∧
    secondCompletion.1.taskExec.Success = false ∧
    secondCompletion.1.taskExec.EndTime = 7 ∧
    secondCompletion.2.1.execMap.get sampleContext.taskExec.ExecId
      = some secondCompletion.1.taskExec :=
  ⟨by decide,
    (C3_later_completion_wins sampleContext sampleStore 5 7 true false .nil .nil).1,
    (C3_later_completion_wins sampleContext sampleStore 5 7 true false .nil .nil).2.1,
    (C3_later_completion_wins sampleContext sampleStore 5 7 true false .nil .nil).2.2.2
      (by decide)⟩

/-- C4 (cascading task removal), evaluated on the code: after 101 runs of
task `t1`, the first of which (`e0`) emitted an event and was then evicted by
retention, `RemoveTask(t1)` returns nil and leaves no task, schedule or
execution of `t1` in the storage, but the event of `e0` is still listed. -/
theorem C4_RemoveTask_keeps_events_of_evicted :
    (oneTask.RunTask "t1" "e0" 1).execId = "e0" ∧
    hundredAndOneRuns.Storage.execMap.get "e0" = none ∧
    (hundredAndOneRuns.RemoveTask "t1").2 = none ∧
    (hundredAndOneRuns.RemoveTask "t1").1.Storage.ListTasks = .ok [] ∧
    (hundredAndOneRuns.RemoveTask "t1").1.Storage.execMap = [] ∧
    (hundredAndOneRuns.RemoveTask "t1").1.Storage.ListTaskEvents "e0"
      = .ok [{ ExecId := "e0", Time := 1, Level := "info", Message := "start" }] := by
  decide!

/-- C5 (removing a task removes its schedules from the orchestrator),
evaluated on the code: after `AddTaskScheme(s1, t1, ..)` and `RemoveTask(t1)`
(which returns nil) the schedule registry still holds `s1` with TaskId `t1`,
its trigger (handle 1) is still registered, the storage has dropped the
schedule, and `AddTaskScheme(s1, ..)` for a new task is refused. -/
theorem C5_RemoveTask_leaves_schedule_and_trigger :
    scheduledThenRemoved.2 = none ∧
    scheduledThenRemoved.1.tasks.get "t1" = none ∧
    scheduledThenRemoved.1.schemes.get "s1"
      = some { SchemeId := "s1", TaskId := "t1", Cron := "* * * * * *", cronId := 1 } ∧
    scheduledThenRemoved.1.cron.entries = [(1, "t1")] ∧
    scheduledThenRemoved.1.Storage.schemeMap = [] ∧
    ((scheduledThenRemoved.1.AddTask "t2" "h" "d" "{}").AddTaskScheme acceptAll
        "s1" "t2" "* * * * * *").2 = some "schemeId already exists" := by
  decide

/-- C6 (event retention): for every sequence of events with the same ExecId
appended with `AddTaskEvent` to a fresh `MemoryStorage`, `ListTaskEvents`
returns exactly the last `min n 100` events of the sequence, in their
original order. -/
theorem C6_event_retention (execId : String) (evs : List TaskEvent)
    (h : ∀ e ∈ evs, e.ExecId = execId) :
    (addEvents NewMemoryStorage evs).ListTaskEvents execId
      = .ok (evs.drop (evs.length - 100)) ∧
    (evs.drop (evs.length - 100)).length = min evs.length 100 := by
  constructor
  · have := addEvents_ledger execId evs NewMemoryStorage h (by simp [NewMemoryStorage, GoMap.get])
    simp only [MemoryStorage.ListTaskEvents, this]
    simp [NewMemoryStorage, GoMap.get]
  · rw [List.length_drop]
    omega

/-- Witness of C6: the 150 sample events of execution `e0`. -/
theorem C6_event_retention_witness :
    (∀ e ∈ sampleEvents, e.ExecId = "e0") ∧
    ((addEvents NewMemoryStorage sampleEvents).ListTaskEvents "e0"
      = .ok (sampleEvents.drop (sampleEvents.length - 100)) ∧
    (sampleEvents.drop (sampleEvents.length - 100)).length = min sampleEvents.length 100) :=
  ⟨by simp [sampleEvents], C6_event_retention "e0" sampleEvents (by simp [sampleEvents])⟩

/-- C7 (evicting an execution evicts its events), evaluated on the code:
execution `e0` with one stored event is evicted from the execution map by the
101st insert, and its event stays in the event ledger. -/
theorem C7_eviction_keeps_events :
    evictionRun.execMap.get "e0" = none ∧
    evictionRun.execMap.length = 1 ∧
    evictionRun.eventMap.get "e0"
      = some [{ ExecId := "e0", Time := 1, Level := "info", Message := "start" }] := by
  decide!

/-- C8 (RunTask on an unknown task): when `taskId` is not in the task registry
`RunTask` returns the empty ExecId with the error `task not found`, starts no
goroutine, and leaves the Tasker (registries, Storage, triggers) as it was. -/
theorem C8_RunTask_unknown (t : Tasker) (taskId uuid : String) (now : Nat)
    (h : t.tasks.get taskId = none) :
    t.RunTask taskId uuid now
      = { tasker := t, execId := "", err := some "task not found", launched := none } := by
  simp [Tasker.RunTask, h]

/-- Witness of C8: `RunTask("unknown")` on `oneTask`. -/
theorem C8_RunTask_unknown_witness :
    oneTask.tasks.get "unknown" = none ∧
    oneTask.RunTask "unknown" "e0" 1
      = { tasker := oneTask, execId := "", err := some "task not found", launched := none } :=
  ⟨by decide, C8_RunTask_unknown oneTask "unknown" "e0" 1 (by decide)⟩

/-- C9 (automatic completion): for a registered task whose handler calls
neither Success nor Fail, `RunTask` returns the new ExecId with no error and
starts a goroutine; whatever the storage is when that goroutine runs, it
returns, and afterwards the execution stored under the ExecId has EndTime set
(the clock of the automatic completion, not zero) and Success true exactly
when the handler returned no error. -/
theorem C9_automatic_completion (t : Tasker) (taskId uuid : String) (now autoNow : Nat)
    (task : Task) (h : TaskHandler)
    (ht : t.tasks.get taskId = some task)
    (hh : t.handlers.get task.TaskHandler = some (some h))
    (hcalls : ∀ k ∈ h.calls, k.isCompletion = false)
    (hnow : 0 < autoNow) :
    (t.RunTask taskId uuid now).err = none ∧
    (t.RunTask taskId uuid now).execId = uuid ∧
    ∃ g, (t.RunTask taskId uuid now).launched = some g ∧
      ∀ s0 : MemoryStorage, ∃ c s e, g.run s0 autoNow = .ret (c, s) ∧
        s.execMap.get uuid = some e ∧ e.TaskId = taskId ∧ e.StartTime = now ∧
        e.EndTime = autoNow ∧ e.EndTime ≠ 0 ∧ e.Success = !h.err := by
  rw [RunTask_known t taskId uuid now task ht]
  refine ⟨rfl, rfl, _, rfl, ?_⟩
  intro s0
  have hc := calls_of_not_completion h.calls
    (TaskContext.mk task (TaskExec.mk uuid taskId now 0 false "")) s0 hcalls
  simp only [Goroutine.run, hh, Option.getD_some, TaskContext.handle, hc.1, if_true]
  refine ⟨_, _, TaskExec.mk uuid taskId now autoNow (!h.err) "", rfl, ?_, rfl, rfl, rfl,
    Nat.pos_iff_ne_zero.mp hnow, rfl⟩
  simp only [TaskContext.complete, MemoryStorage.UpdateTaskExec, GoMap.get_set_self]

/-- Witness of C9: `RunTask(t1)` on `oneTask`, whose handler only emits an
event and returns nil. -/
theorem C9_automatic_completion_witness :
    oneTask.tasks.get "t1"
      = some { TaskId := "t1", TaskHandler := "h", Desc := "d", Param := "{}" } ∧
    oneTask.handlers.get "h" = some (some echoHandler) ∧
    (∀ k ∈ echoHandler.calls, k.isCompletion = false) ∧ 0 < 9 ∧
    ((oneTask.RunTask "t1" "e0" 1).err = none ∧
    (oneTask.RunTask "t1" "e0" 1).execId = "e0" ∧
    ∃ g, (oneTask.RunTask "t1" "e0" 1).launched = some g ∧
      ∀ s0 : MemoryStorage, ∃ c s e, g.run s0 9 = .ret (c, s) ∧
        s.execMap.get "e0" = some e ∧ e.TaskId = "t1" ∧ e.StartTime = 1 ∧
        e.EndTime = 9 ∧ e.EndTime ≠ 0 ∧ e.Success = !echoHandler.err) :=
  ⟨by decide, by decide, by decide, by decide,
    C9_automatic_completion oneTask "t1" "e0" 1 9
      { TaskId := "t1", TaskHandler := "h", Desc := "d", Param := "{}" } echoHandler
      (by decide) (by decide) (by decide) (by decide)⟩

/-- C10 (explicit completion wins): for a registered task whose handler
calls Success(result) or Fail(result) exactly once, at a non-zero clock time
`nowC`, and returns any value, the goroutine started by `RunTask` returns on
every storage and ends exactly where the handler's own calls end (the
automatic completion changes nothing); the context's execution then has the
flag, EndTime `nowC` and Result of the explicit call, an execution stored
under the ExecId is that execution, and it is stored whenever the result
serialised or the storage still held the execution when the goroutine ran. -/
theorem C10_explicit_completion_wins (t : Tasker) (taskId uuid : String)
    (now nowC autoNow : Nat) (task : Task) (pre post : List Call) (success err : Bool)
    (result : Payload)
    (ht : t.tasks.get taskId = some task)
    (hh : t.handlers.get task.TaskHandler
      = some (some (TaskHandler.mk (pre ++ Call.completion success nowC result :: post) err)))
    (hpre : ∀ k ∈ pre, k.isCompletion = false)
    (hpost : ∀ k ∈ post, k.isCompletion = false)
    (hnowC : 0 < nowC) :
    ∃ g, (t.RunTask taskId uuid now).launched = some g ∧
      ∀ s0 : MemoryStorage, ∃ c s, g.run s0 autoNow = .ret (c, s) ∧
        (TaskContext.mk task (TaskExec.mk uuid taskId now 0 false "")).handle s0
          (TaskHandler.mk (pre ++ Call.completion success nowC result :: post) err) = (c, s) ∧
        c.taskExec = TaskExec.mk uuid taskId now nowC success result.stored ∧
        (∀ e, s.execMap.get uuid = some e → e = c.taskExec) ∧
        ((result ≠ Payload.unmarshalable ∨ (s0.execMap.get uuid).isSome = true) →
          s.execMap.get uuid = some c.taskExec) := by
  rw [RunTask_known t taskId uuid now task ht]
  refine ⟨_, rfl, ?_⟩
  intro s0
  have hp := calls_of_not_completion pre
    (TaskContext.mk task (TaskExec.mk uuid taskId now 0 false "")) s0 hpre
  have hpair : pre.foldl TaskContext.call
      (TaskContext.mk task (TaskExec.mk uuid taskId now 0 false ""), s0)
      = (TaskContext.mk task (TaskExec.mk uuid taskId now 0 false ""),
          (pre.foldl TaskContext.call
            (TaskContext.mk task (TaskExec.mk uuid taskId now 0 false ""), s0)).2) :=
    Prod.ext hp.1 rfl
  generalize (pre.foldl TaskContext.call
      (TaskContext.mk task (TaskExec.mk uuid taskId now 0 false ""), s0)).2 = s1 at hp hpair
  have hc1 := complete_fresh task uuid taskId now 0 nowC false success s1 result
  have hc2 := complete_stored
    (TaskContext.mk task (TaskExec.mk uuid taskId now 0 false "")) s1 nowC success result
  rw [hc1] at hc2
  have hq := calls_of_not_completion post
    ((TaskContext.mk task (TaskExec.mk uuid taskId now 0 false "")).complete
      s1 nowC success result).1
    ((TaskContext.mk task (TaskExec.mk uuid taskId now 0 false "")).complete
      s1 nowC success result).2.1 hpost
  have hhandle : (TaskContext.mk task (TaskExec.mk uuid taskId now 0 false "")).handle s0
      (TaskHandler.mk (pre ++ Call.completion success nowC result :: post) err)
      = post.foldl TaskContext.call
          (((TaskContext.mk task (TaskExec.mk uuid taskId now 0 false "")).complete
            s1 nowC success result).1,
           ((TaskContext.mk task (TaskExec.mk uuid taskId now 0 false "")).complete
            s1 nowC success result).2.1) := by
    simp only [TaskContext.handle, List.foldl_append, List.foldl_cons]
    rw [hpair, call_completion]
  rw [hhandle]
  have hend : ¬ ((post.foldl TaskContext.call
      (((TaskContext.mk task (TaskExec.mk uuid taskId now 0 false "")).complete
        s1 nowC success result).1,
       ((TaskContext.mk task (TaskExec.mk uuid taskId now 0 false "")).complete
        s1 nowC success result).2.1)).1.taskExec.EndTime = 0) := by
    rw [hq.1, hc1]
    exact Nat.pos_iff_ne_zero.mp hnowC
  refine ⟨_, _, ?_, rfl, ?_, ?_, ?_⟩
  · simp only [Goroutine.run, hh, Option.getD_some, hhandle, if_neg hend]
  · rw [hq.1, hc1]
  · intro e he
    rw [hq.2] at he
    rw [hq.1, hc1]
    exact hc2.1 e he
  · intro hor
    rw [hq.2, hq.1, hc1]
    refine hc2.2 (hor.imp id (fun h0 => ?_))
    rw [hp.2]
    exact h0

/-- Witness of C10: `failingHandler` calls `Fail` at time 7 and returns nil;
the execution stays failed. -/
theorem C10_explicit_completion_wins_witness :
    failingTask.tasks.get "t1"
      = some (Task.mk "t1" "f" "d" "{}") ∧
    failingTask.handlers.get "f"
      = some (some (TaskHandler.mk ([Call.Event 6 "info" "start"]
          ++ Call.completion false 7 (.value "oops") :: [Call.Event 8 "info" "end"]) false)) ∧
    (∀ k ∈ [Call.Event 6 "info" "start"], k.isCompletion = false) ∧
    (∀ k ∈ [Call.Event 8 "info" "end"], k.isCompletion = false) ∧ 0 < 7 ∧
    ∃ g, (failingTask.RunTask "t1" "e0" 5).launched = some g ∧
      ∀ s0 : MemoryStorage, ∃ c s, g.run s0 9 = .ret (c, s) ∧
        (TaskContext.mk (Task.mk "t1" "f" "d" "{}") (TaskExec.mk "e0" "t1" 5 0 false "")).handle s0
          (TaskHandler.mk ([Call.Event 6 "info" "start"]
            ++ Call.completion false 7 (.value "oops") :: [Call.Event 8 "info" "end"]) false)
          = (c, s) ∧
        c.taskExec = TaskExec.mk "e0" "t1" 5 7 false (Payload.value "oops").stored ∧
        (∀ e, s.execMap.get "e0" = some e → e = c.taskExec) ∧
        ((Payload.value "oops" ≠ Payload.unmarshalable ∨ (s0.execMap.get "e0").isSome = true) →
          s.execMap.get "e0" = some c.taskExec) :=
  ⟨by decide, by decide, by decide, by decide, by decide,
    C10_explicit_completion_wins failingTask "t1" "e0" 5 7 9 (Task.mk "t1" "f" "d" "{}")
      [Call.Event 6 "info" "start"] [Call.Event 8 "info" "end"] false false (.value "oops")
      (by decide) (by decide) (by decide) (by decide) (by decide)⟩

/-- C12 (AddTaskScheme rejects bad references without side effects): when
`taskId` is not in the task registry the call returns `taskId not found`, when
`taskId` is known and `schemeId` is already in the schedule registry it
returns `schemeId already exists`; in both cases the Tasker (schedule
registry, Storage, triggers) is returned unchanged. -/
theorem C12_AddTaskScheme_rejects (accepts : String → Bool) (t : Tasker)
    (schemeId taskId cronStr : String) :
    (t.tasks.get taskId = none →
      t.AddTaskScheme accepts schemeId taskId cronStr = (t, some "taskId not found")) ∧
    ((t.tasks.get taskId).isSome = true → (t.schemes.get schemeId).isSome = true →
      t.AddTaskScheme accepts schemeId taskId cronStr = (t, some "schemeId already exists")) := by
  constructor
  · intro h
    simp [Tasker.AddTaskScheme, GoMap.has_eq_isSome, h]
  · intro h1 h2
    simp [Tasker.AddTaskScheme, GoMap.has_eq_isSome, h1, h2]

/-- Witness of C12: on `oneTask` with schedule `s1`, an unknown task and the
taken id `s1`. -/
theorem C12_AddTaskScheme_rejects_witness :
    ((oneTask.AddTaskScheme acceptAll "s1" "t1" "* * * * * *").1.tasks.get "nope" = none ∧
      (oneTask.AddTaskScheme acceptAll "s1" "t1" "* * * * * *").1.AddTaskScheme acceptAll
          "s2" "nope" "* * * * * *"
        = ((oneTask.AddTaskScheme acceptAll "s1" "t1" "* * * * * *").1,
            some "taskId not found")) ∧
    (((oneTask.AddTaskScheme acceptAll "s1" "t1" "* * * * * *").1.tasks.get "t1").isSome = true ∧
      ((oneTask.AddTaskScheme acceptAll "s1" "t1" "* * * * * *").1.schemes.get "s1").isSome
        = true ∧
      (oneTask.AddTaskScheme acceptAll "s1" "t1" "* * * * * *").1.AddTaskScheme acceptAll
          "s1" "t1" "* * * * * *"
        = ((oneTask.AddTaskScheme acceptAll "s1" "t1" "* * * * * *").1,
            some "schemeId already exists")) :=
  ⟨⟨by decide, (C12_AddTaskScheme_rejects acceptAll
      (oneTask.AddTaskScheme acceptAll "s1" "t1" "* * * * * *").1 "s2" "nope" "* * * * * *").1
      (by decide)⟩,
    ⟨by decide, by decide, (C12_AddTaskScheme_rejects acceptAll
      (oneTask.AddTaskScheme acceptAll "s1" "t1" "* * * * * *").1 "s1" "t1" "* * * * * *").2
      (by decide) (by decide)⟩⟩

/-- C14 (AddTask is a no-op on a bad request and registers otherwise): when
the handler name is not registered or `taskId` is already in the task
registry, `AddTask` returns the Tasker unchanged; otherwise the task registry
and the storage both map `taskId` to the task with exactly the given handler
name, description and parameter, every other key of both maps is as before,
and nothing else of the Tasker changes. -/
theorem C14_AddTask (t : Tasker) (taskId taskType desc param : String) :
    ((t.handlers.get taskType = none ∨ (t.tasks.get taskId).isSome = true) →
      t.AddTask taskId taskType desc param = t) ∧
    ((t.handlers.get taskType).isSome = true → t.tasks.get taskId = none →
      (t.AddTask taskId taskType desc param).tasks.get taskId
        = some (Task.mk taskId taskType desc param) ∧
      (t.AddTask taskId taskType desc param).Storage.taskMap.get taskId
        = some (Task.mk taskId taskType desc param) ∧
      (∀ k, k ≠ taskId →
        (t.AddTask taskId taskType desc param).tasks.get k = t.tasks.get k ∧
        (t.AddTask taskId taskType desc param).Storage.taskMap.get k
          = t.Storage.taskMap.get k) ∧
      (t.AddTask taskId taskType desc param).handlers = t.handlers ∧
      (t.AddTask taskId taskType desc param).schemes = t.schemes ∧
      (t.AddTask taskId taskType desc param).cron = t.cron ∧
      (t.AddTask taskId taskType desc param).Storage.schemeMap = t.Storage.schemeMap ∧
      (t.AddTask taskId taskType desc param).Storage.execMap = t.Storage.execMap ∧
      (t.AddTask taskId taskType desc param).Storage.eventMap = t.Storage.eventMap) := by
  constructor
  · intro h
    rcases h with h | h
    · simp [Tasker.AddTask, GoMap.has_eq_isSome, h]
    · by_cases hh : (t.handlers.get taskType).isSome = true
      · simp [Tasker.AddTask, GoMap.has_eq_isSome, h, hh]
      · simp [Tasker.AddTask, GoMap.has_eq_isSome, hh]
  · intro h1 h2
    have hadd : t.AddTask taskId taskType desc param
        = { t with
            Storage := { t.Storage with
              taskMap := t.Storage.taskMap.set taskId (Task.mk taskId taskType desc param) },
            tasks := t.tasks.set taskId (Task.mk taskId taskType desc param) } := by
      simp [Tasker.AddTask, GoMap.has_eq_isSome, h1, h2, MemoryStorage.AddTask]
    rw [hadd]
    refine ⟨GoMap.get_set_self _ _ _, GoMap.get_set_self _ _ _, ?_, rfl, rfl, rfl, rfl, rfl, rfl⟩
    intro k hk
    exact ⟨GoMap.get_set_other _ _ _ _ hk, GoMap.get_set_other _ _ _ _ hk⟩

/-- Witness of C14: on `oneTask`, an unregistered handler name and the new
task `t2` of handler `h`. -/
theorem C14_AddTask_witness :
    ((oneTask.handlers.get "nope" = none ∨ (oneTask.tasks.get "t2").isSome = true) ∧
      oneTask.AddTask "t2" "nope" "d" "{}" = oneTask) ∧
    ((oneTask.handlers.get "h").isSome = true ∧ oneTask.tasks.get "t2" = none ∧
      (oneTask.AddTask "t2" "h" "d2" "{}").tasks.get "t2"
        = some (Task.mk "t2" "h" "d2" "{}") ∧
      (oneTask.AddTask "t2" "h" "d2" "{}").Storage.taskMap.get "t2"
        = some (Task.mk "t2" "h" "d2" "{}")) :=
  ⟨⟨Or.inl (by decide), (C14_AddTask oneTask "t2" "nope" "d" "{}").1 (Or.inl (by decide))⟩,
    ⟨by decide, by decide,
      ((C14_AddTask oneTask "t2" "h" "d2" "{}").2 (by decide) (by decide)).1,
      ((C14_AddTask oneTask "t2" "h" "d2" "{}").2 (by decide) (by decide)).2.1⟩⟩

/-- C16 (AddTaskScheme is atomic on failure), evaluated on the code: when the
scheduler rejects the cron expression the call returns `add cron failed` with
the schedule registry and the triggers unchanged, but the storage, which held
no schedule before, now lists the new schedule `s1`. -/
theorem C16_rejected_cron_leaves_stored_schedule :
    rejectedSchedule.2 = some "add cron failed" ∧
    rejectedSchedule.1.schemes = oneTask.schemes ∧
    rejectedSchedule.1.cron = oneTask.cron ∧
    oneTask.Storage.ListTaskSchemes = .ok [] ∧
    rejectedSchedule.1.Storage.ListTaskSchemes
      = .ok [{ SchemeId := "s1", TaskId := "t1", Cron := "not a cron", cronId := 0 }] := by
  decide

/-- C11 (end-to-end event log of one execution): on a Tasker whose storage
holds no events yet for the new ExecId (a fresh `MemoryStorage` in
particular), for a registered task whose handler emits `k ≤ 100` events and
then calls `Success(nil)` at a non-zero clock time, `RunTask` returns the
non-empty ExecId with no error, and once the handler has run `Events(execId)`
returns exactly the `k` emitted events, in emission order, each with that
ExecId, and the stored execution has Success true. -/
theorem C11_event_log (t : Tasker) (taskId uuid : String) (now nowC autoNow : Nat)
    (task : Task) (evs : List (Nat × String × String)) (err : Bool)
    (ht : t.tasks.get taskId = some task)
    (hh : t.handlers.get task.TaskHandler
      = some (some (TaskHandler.mk (eventCalls evs ++ [Call.Success nowC Payload.nil]) err)))
    (hfresh : t.Storage.eventMap.get uuid = none)
    (hk : evs.length ≤ 100) (huuid : uuid ≠ "") (hnowC : 0 < nowC) :
    (t.RunTask taskId uuid now).err = none ∧
    (t.RunTask taskId uuid now).execId = uuid ∧
    (t.RunTask taskId uuid now).execId ≠ "" ∧
    ∃ g c s, (t.RunTask taskId uuid now).launched = some g ∧
      g.run (t.RunTask taskId uuid now).tasker.Storage autoNow = .ret (c, s) ∧
      (Tasker.Events { (t.RunTask taskId uuid now).tasker with Storage := s }
        (t.RunTask taskId uuid now).execId) = .ok (eventsOf uuid evs) ∧
      (eventsOf uuid evs).length = evs.length ∧
      (eventsOf uuid evs).map (fun e => (e.Level, e.Message))
        = evs.map (fun e => (e.2.1, e.2.2)) ∧
      (∀ e ∈ eventsOf uuid evs, e.ExecId = uuid) ∧
      ∃ e, s.execMap.get uuid = some e ∧ e.Success = true ∧ e.EndTime = nowC := by
  rw [RunTask_known t taskId uuid now task ht]
  have hexecId : ∀ e ∈ eventsOf uuid evs, e.ExecId = uuid := by
    intro e he
    simp only [eventsOf, List.mem_map] at he
    obtain ⟨x, -, rfl⟩ := he
    rfl
  have hprior : (((t.storageAfterRun taskId uuid now).eventMap.get uuid).getD []) = [] := by
    rw [Tasker.storageAfterRun, (trimExecs_other_maps _).1]
    simp only [hfresh, Option.getD_none]
  have hlen : (eventsOf uuid evs).length = evs.length := by
    simp [eventsOf]
  have hledger := addEvents_ledger uuid (eventsOf uuid evs)
    (t.storageAfterRun taskId uuid now) hexecId (by rw [hprior]; simp)
  rw [hprior, List.nil_append,
    show (eventsOf uuid evs).length - 100 = 0 by omega, List.drop_zero] at hledger
  have hfold := eventCalls_fold evs
    (TaskContext.mk task (TaskExec.mk uuid taskId now 0 false ""))
    (t.storageAfterRun taskId uuid now)
  simp only at hfold
  generalize addEvents (t.storageAfterRun taskId uuid now) (eventsOf uuid evs) = s1
    at hledger hfold
  have hc1 := complete_fresh task uuid taskId now 0 nowC false true s1 Payload.nil
  have hc2 := complete_stored
    (TaskContext.mk task (TaskExec.mk uuid taskId now 0 false "")) s1 nowC true Payload.nil
  have hc3 := complete_other_maps
    (TaskContext.mk task (TaskExec.mk uuid taskId now 0 false "")) s1 nowC true Payload.nil
  have hrun : (Goroutine.mk ((t.handlers.get task.TaskHandler).getD none)
        (some (TaskContext.mk task (TaskExec.mk uuid taskId now 0 false "")))).run
        (t.storageAfterRun taskId uuid now) autoNow
      = .ret (((TaskContext.mk task (TaskExec.mk uuid taskId now 0 false "")).complete
                s1 nowC true Payload.nil).1,
              ((TaskContext.mk task (TaskExec.mk uuid taskId now 0 false "")).complete
                s1 nowC true Payload.nil).2.1) := by
    have hend : ¬ (((TaskContext.mk task (TaskExec.mk uuid taskId now 0 false "")).complete
        s1 nowC true Payload.nil).1.taskExec.EndTime = 0) := by
      rw [hc1]
      exact Nat.pos_iff_ne_zero.mp hnowC
    simp only [Goroutine.run, hh, Option.getD_some, TaskContext.handle, List.foldl_append,
      hfold, List.foldl_cons, List.foldl_nil, TaskContext.call, TaskContext.Success,
      if_neg hend]
  refine ⟨rfl, rfl, huuid, _, _, _, rfl, hrun, ?_, hlen, ?_, hexecId, ?_⟩
  · simp only [Tasker.Events, MemoryStorage.ListTaskEvents, hc3.1, hledger]
  · simp [eventsOf]
  · refine ⟨_, hc2.2 (Or.inl (by decide)), ?_, ?_⟩
    · rw [hc1]
    · rw [hc1]

/-- Witness of C11: the run of `TestTasker`, two events. -/
theorem C11_event_log_witness :
    testTasker.tasks.get "task1"
      = some (Task.mk "task1" "TestTask" "this is a test task" "{}") ∧
    testTasker.handlers.get "TestTask"
      = some (some (TaskHandler.mk
          (eventCalls [(2, "info", "test task start"), (3, "info", "test task end")]
            ++ [Call.Success 4 Payload.nil]) false)) ∧
    testTasker.Storage.eventMap.get "e0" = none ∧
    [(2, "info", "test task start"), (3, "info", "test task end")].length ≤ 100 ∧
    "e0" ≠ "" ∧ 0 < 4 ∧
    ((testTasker.RunTask "task1" "e0" 1).err = none ∧
    (testTasker.RunTask "task1" "e0" 1).execId = "e0" ∧
    (testTasker.RunTask "task1" "e0" 1).execId ≠ "" ∧
    ∃ g c s, (testTasker.RunTask "task1" "e0" 1).launched = some g ∧
      g.run (testTasker.RunTask "task1" "e0" 1).tasker.Storage 5 = .ret (c, s) ∧
      (Tasker.Events { (testTasker.RunTask "task1" "e0" 1).tasker with Storage := s }
        (testTasker.RunTask "task1" "e0" 1).execId)
        = .ok (eventsOf "e0" [(2, "info", "test task start"), (3, "info", "test task end")]) ∧
      (eventsOf "e0" [(2, "info", "test task start"), (3, "info", "test task end")]).length
        = [(2, "info", "test task start"), (3, "info", "test task end")].length ∧
      (eventsOf "e0" [(2, "info", "test task start"), (3, "info", "test task end")]).map
          (fun e => (e.Level, e.Message))
        = [(2, "info", "test task start"), (3, "info", "test task end")].map
            (fun e => (e.2.1, e.2.2)) ∧
      (∀ e ∈ eventsOf "e0" [(2, "info", "test task start"), (3, "info", "test task end")],
        e.ExecId = "e0") ∧
      ∃ e, s.execMap.get "e0" = some e ∧ e.Success = true ∧ e.EndTime = 4) :=
  ⟨by decide, by decide, by decide, by decide, by decide, by decide,
    C11_event_log testTasker "task1" "e0" 1 4 5
      (Task.mk "task1" "TestTask" "this is a test task" "{}")
      [(2, "info", "test task start"), (3, "info", "test task end")] false
      (by decide) (by decide) (by decide) (by decide) (by decide) (by decide)⟩

/-- C13 (add-then-remove of a schedule is a round trip): when `taskId` is
registered, `schemeId` is unused (neither the schedule registry nor the
storage holds it), the scheduler accepts the cron expression and every
registered trigger carries a handle the scheduler has issued, then
`AddTaskScheme` followed by `RemoveTaskScheme` both return nil and leave the
schedule registry, the storage and the registered triggers as they were (the
task and handler registries too). -/
theorem C13_add_then_remove (accepts : String → Bool) (t : Tasker)
    (schemeId taskId cronStr : String)
    (ht : (t.tasks.get taskId).isSome = true)
    (hreg : t.schemes.get schemeId = none)
    (hsto : t.Storage.schemeMap.get schemeId = none)
    (hacc : accepts cronStr = true)
    (hcron : ∀ en ∈ t.cron.entries, en.1 ≤ t.cron.nextID) :
    (t.AddTaskScheme accepts schemeId taskId cronStr).2 = none ∧
    ∃ t2, (t.AddTaskScheme accepts schemeId taskId cronStr).1.RemoveTaskScheme schemeId
        = .ret (t2, none) ∧
      t2.schemes = t.schemes ∧ t2.Storage = t.Storage ∧
      t2.Storage.ListTaskSchemes = t.Storage.ListTaskSchemes ∧
      t2.cron.entries = t.cron.entries ∧ t2.tasks = t.tasks ∧ t2.handlers = t.handlers := by
  have hadd : t.AddTaskScheme accepts schemeId taskId cronStr
      = ({ t with
            Storage := MemoryStorage.writeScheme
              { t.Storage with
                schemeMap := t.Storage.schemeMap.set schemeId
                  (TaskScheme.mk schemeId taskId cronStr 0) }
              (TaskScheme.mk schemeId taskId cronStr (t.cron.nextID + 1)),
            cron := Cron.mk (t.cron.nextID + 1)
              (t.cron.entries ++ [(t.cron.nextID + 1, taskId)]),
            schemes := t.schemes.set schemeId
              (TaskScheme.mk schemeId taskId cronStr (t.cron.nextID + 1)) }, none) := by
    simp [Tasker.AddTaskScheme, GoMap.has_eq_isSome, ht, hreg, MemoryStorage.AddTaskScheme,
      Cron.AddFunc, hacc]
  rw [hadd]
  refine ⟨rfl, ?_⟩
  simp only [Tasker.RemoveTaskScheme, GoMap.get_set_self, MemoryStorage.RemoveTaskScheme,
    MemoryStorage.writeScheme, Cron.Remove]
  have hsm : GoMap.delete
      (List.map
        (fun kv => if kv.1 == schemeId
          then (kv.1, TaskScheme.mk schemeId taskId cronStr (t.cron.nextID + 1)) else kv)
        (t.Storage.schemeMap.set schemeId (TaskScheme.mk schemeId taskId cronStr 0)))
      schemeId = t.Storage.schemeMap := by
    rw [GoMap.delete_write, GoMap.delete_set, GoMap.delete_of_get_none _ _ hsto]
  have hreg2 : GoMap.delete
      (t.schemes.set schemeId (TaskScheme.mk schemeId taskId cronStr (t.cron.nextID + 1)))
      schemeId = t.schemes := by
    rw [GoMap.delete_set, GoMap.delete_of_get_none _ _ hreg]
  have hcr := Cron.remove_added t.cron taskId hcron
  refine ⟨_, rfl, ?_, ?_, ?_, ?_, rfl, rfl⟩
  · exact hreg2
  · simp only [hsm]
  · simp only [hsm]
  · exact hcr

/-- Witness of C13: schedule `s1` for `t1` on `oneTask`. -/
theorem C13_add_then_remove_witness :
    (oneTask.tasks.get "t1").isSome = true ∧ oneTask.schemes.get "s1" = none ∧
    oneTask.Storage.schemeMap.get "s1" = none ∧ acceptAll "* * * * * *" = true ∧
    (∀ en ∈ oneTask.cron.entries, en.1 ≤ oneTask.cron.nextID) ∧
    ((oneTask.AddTaskScheme acceptAll "s1" "t1" "* * * * * *").2 = none ∧
    ∃ t2, (oneTask.AddTaskScheme acceptAll "s1" "t1" "* * * * * *").1.RemoveTaskScheme "s1"
        = .ret (t2, none) ∧
      t2.schemes = oneTask.schemes ∧ t2.Storage = oneTask.Storage ∧
      t2.Storage.ListTaskSchemes = oneTask.Storage.ListTaskSchemes ∧
      t2.cron.entries = oneTask.cron.entries ∧ t2.tasks = oneTask.tasks ∧
      t2.handlers = oneTask.handlers) :=
  ⟨by decide, by decide, by decide, by decide, by decide,
    C13_add_then_remove acceptAll oneTask "s1" "t1" "* * * * * *"
      (by decide) (by decide) (by decide) (by decide) (by decide)⟩

/-- C13 as stated fails on a state whose storage already holds the schedule id
that the registry lacks: on `restartedTasker` the id `s1` is not in the
schedule registry, `AddTaskScheme(s1, t1, ..)` and `RemoveTaskScheme(s1)` both
return nil, and the stored schedule `s1` that was listed before is gone. -/
theorem C13_stored_schedule_not_restored :
    (restartedTasker.tasks.get "t1").isSome = true ∧
    restartedTasker.schemes.get "s1" = none ∧
    restartedTasker.Storage.ListTaskSchemes
      = .ok [{ SchemeId := "s1", TaskId := "t1", Cron := "* * * * * *", cronId := 1 }] ∧
    (restartedTasker.AddTaskScheme acceptAll "s1" "t1" "* * * * * *").2 = none ∧
    restartedRoundTrip.returned.map Prod.snd = some none ∧
    restartedRoundTrip.returned.map (fun r => r.1.Storage.ListTaskSchemes) = some (.ok []) ∧
    restartedRoundTrip.returned.map (fun r => r.1.schemes) = some restartedTasker.schemes := by
  decide

/-- C15 (Run recovers the registries from Storage): on a Tasker with an empty
task registry (whatever its schedule registry holds), over a storage whose
tasks have distinct TaskIds, `Run` returns nil; afterwards the task registry holds exactly the
stored tasks, each under its TaskId, and the scheduler has got, after the
triggers it had, one new trigger for each stored schedule whose TaskId names
a stored task and whose cron expression is accepted, in the order of the
stored schedules, and none for the others. -/
theorem C15_Run_recovers (accepts : String → Bool) (t : Tasker)
    (htasks : t.tasks = [])
    (hnodup : (t.Storage.taskMap.values.map Task.TaskId).Nodup) :
    (t.Run accepts).2 = none ∧
    (∀ k x, (t.Run accepts).1.tasks.get k = some x →
      x ∈ t.Storage.taskMap.values ∧ x.TaskId = k) ∧
    (∀ x ∈ t.Storage.taskMap.values, (t.Run accepts).1.tasks.get x.TaskId = some x) ∧
    (t.Run accepts).1.cron.entries
      = t.cron.entries ++ newEntries t.cron.nextID
          (t.Storage.schemeMap.values.filter
            (fun s => t.Storage.taskMap.values.any (fun x => x.TaskId == s.TaskId)
              && accepts s.Cron)) := by
  have hrun : t.Run accepts
      = ((t.Storage.schemeMap.values.foldl (Tasker.runSchemeStep accepts)
          { t with
            tasks := t.Storage.taskMap.values.foldl
              (fun m task => m.set task.TaskId task) t.tasks,
            schemes := t.Storage.schemeMap.values.foldl
              (fun m scheme => m.set scheme.SchemeId scheme) t.schemes }), none) := by
    simp only [Tasker.Run, MemoryStorage.ListTasks, MemoryStorage.ListTaskSchemes,
      Run_tasks_fold, Run_schemes_fold]
  have hspec := runSchemes_spec accepts t.Storage.schemeMap.values
    { t with
      tasks := t.Storage.taskMap.values.foldl (fun m task => m.set task.TaskId task) t.tasks,
      schemes := t.Storage.schemeMap.values.foldl
        (fun m scheme => m.set scheme.SchemeId scheme) t.schemes }
  rw [hrun]
  simp only at hspec ⊢
  refine ⟨trivial, ?_, ?_, ?_⟩
  · intro k x hx
    rw [hspec.1, htasks] at hx
    rcases loadTasks_get_some _ k x [] hx with h | h
    · exact h
    · simp [GoMap.get] at h
  · intro x hx
    rw [hspec.1]
    exact loadTasks_get_of_mem _ x _ hnodup hx
  · have hf : (fun s : TaskScheme =>
          (List.foldl (fun m task => m.set task.TaskId task) t.tasks
              t.Storage.taskMap.values).has s.TaskId && accepts s.Cron)
        = (fun s : TaskScheme =>
          t.Storage.taskMap.values.any (fun x => x.TaskId == s.TaskId) && accepts s.Cron) := by
      funext s
      rw [loadTasks_has, htasks]
      simp [GoMap.has]
    rw [hspec.2.2.2, hf]

/-- Witness of C15: `Run` on a new Tasker over `recoveryStore`; the schedule
`s2` of the missing task gets no trigger. -/
theorem C15_Run_recovers_witness :
    (Default.SetStorage recoveryStore).tasks = [] ∧
    ((Default.SetStorage recoveryStore).Storage.taskMap.values.map Task.TaskId).Nodup ∧
    (((Default.SetStorage recoveryStore).Run acceptAll).2 = none ∧
    (∀ k x, ((Default.SetStorage recoveryStore).Run acceptAll).1.tasks.get k = some x →
      x ∈ (Default.SetStorage recoveryStore).Storage.taskMap.values ∧ x.TaskId = k) ∧
    (∀ x ∈ (Default.SetStorage recoveryStore).Storage.taskMap.values,
      ((Default.SetStorage recoveryStore).Run acceptAll).1.tasks.get x.TaskId = some x) ∧
    ((Default.SetStorage recoveryStore).Run acceptAll).1.cron.entries
      = (Default.SetStorage recoveryStore).cron.entries
        ++ newEntries (Default.SetStorage recoveryStore).cron.nextID
          ((Default.SetStorage recoveryStore).Storage.schemeMap.values.filter
            (fun s => (Default.SetStorage recoveryStore).Storage.taskMap.values.any
                (fun x => x.TaskId == s.TaskId)
              && acceptAll s.Cron))) :=
  ⟨by decide, by decide,
    C15_Run_recovers acceptAll (Default.SetStorage recoveryStore) (by decide) (by decide)⟩

/-- C17 as stated fails: after `Register("h", nil)` and `AddTask("t1", "h", ..)`
the task `t1` is in the task registry and its handler name is in the handler
registry, yet `RunTask("t1")` returns no error and starts its goroutine with
the nil handler (and a non-nil context), and that goroutine panics. -/
theorem C17_nil_handler_is_invoked :
    nilHandlerTask.tasks.get "t1" = some (Task.mk "t1" "h" "d" "{}") ∧
    nilHandlerTask.handlers.has "h" = true ∧
    nilHandlerTask.handlers.get "h" = some none ∧
    (nilHandlerTask.RunTask "t1" "e0" 1).err = none ∧
    (nilHandlerTask.RunTask "t1" "e0" 1).launched
      = some (Goroutine.mk none
          (some (TaskContext.mk (Task.mk "t1" "h" "d" "{}")
            (TaskExec.mk "e0" "t1" 1 0 false "")))) ∧
    (Goroutine.mk none
        (some (TaskContext.mk (Task.mk "t1" "h" "d" "{}")
          (TaskExec.mk "e0" "t1" 1 0 false "")))).run
      (nilHandlerTask.RunTask "t1" "e0" 1).tasker.Storage 2 = Outcome.panic := by
  decide

/-- C17 amended (handlers registered non-nil): in every state reachable from
`Default()` by Register of non-nil handlers, AddTask, RemoveTask,
AddTaskScheme, RemoveTaskScheme, Run and RunTask (and the runs of the started
goroutines), every task of the task registry names a handler that is in the
handler registry and is not nil, and for every registered taskId `RunTask`
starts its goroutine with that non-nil handler and a non-nil context. -/
theorem C17_RunTask_handler_and_context (accepts : String → Bool) (t : Tasker)
    (hr : Reachable accepts t) :
    (∀ k task, t.tasks.get k = some task →
      ∃ h, t.handlers.get task.TaskHandler = some (some h)) ∧
    (∀ taskId task uuid now, t.tasks.get taskId = some task →
      ∃ h c, t.handlers.get task.TaskHandler = some (some h) ∧
        t.NewTaskContext (TaskExec.mk uuid taskId now 0 false "") = some c ∧
        (t.RunTask taskId uuid now).launched = some (Goroutine.mk (some h) (some c))) := by
  have hinv := reachable_handlersKnown accepts t hr
  have hnn := reachable_handlersNonNil accepts t hr
  have hreg : ∀ k task, t.tasks.get k = some task →
      ∃ h, t.handlers.get task.TaskHandler = some (some h) := by
    intro k task hk
    obtain ⟨a, ha⟩ := GoMap.mem_of_get _ _ _ hk
    obtain ⟨v, hv⟩ := Option.isSome_iff_exists.mp (hinv.1 (a, task) ha)
    obtain ⟨b, hb⟩ := GoMap.mem_of_get _ _ _ hv
    obtain ⟨h, hh⟩ := Option.isSome_iff_exists.mp (hnn (b, v) hb)
    have hvh : v = some h := hh
    exact ⟨h, by rw [← hvh]; exact hv⟩
  refine ⟨hreg, ?_⟩
  intro taskId task uuid now hk
  obtain ⟨h, hh⟩ := hreg taskId task hk
  refine ⟨h, TaskContext.mk task (TaskExec.mk uuid taskId now 0 false ""), hh, ?_, ?_⟩
  · simp [Tasker.NewTaskContext, hk]
  · rw [RunTask_known t taskId uuid now task hk, hh]
    rfl

/-- Witness of the amended C17: `oneTask` is reached from `Default()` by
`Register` of the non-nil `echoHandler` and `AddTask`. -/
theorem C17_RunTask_handler_and_context_witness :
    Reachable acceptAll oneTask ∧
    ((∀ k task, oneTask.tasks.get k = some task →
      ∃ h, oneTask.handlers.get task.TaskHandler = some (some h)) ∧
    (∀ taskId task uuid now, oneTask.tasks.get taskId = some task →
      ∃ h c, oneTask.handlers.get task.TaskHandler = some (some h) ∧
        oneTask.NewTaskContext (TaskExec.mk uuid taskId now 0 false "") = some c ∧
        (oneTask.RunTask taskId uuid now).launched
          = some (Goroutine.mk (some h) (some c)))) :=
  ⟨Reachable.addTask "t1" "h" "d" "{}" (Reachable.register "h" echoHandler Reachable.start),
    C17_RunTask_handler_and_context acceptAll oneTask
      (Reachable.addTask "t1" "h" "d" "{}"
        (Reachable.register "h" echoHandler Reachable.start))⟩

end tasker
